import Mathlib

/-!
Verification of the RST document/table generation layer of hdmf-docutils
(`nwb_docutils/doctools/rstdoc.py`), as a shallow embedding in Lean 4.

Python strings are embedded as `String`, Python `None`-or-string cell values as
`Cell`, mutation of `self` as functions returning the updated object, and a
raised exception as an `Option String`/`Except String` error channel (the
`Option String` component of a pair is `some exc` when the Python method raises
`exc`, in which case the returned object is the unmodified receiver, matching
the source where every raise precedes the mutation).
-/

namespace HdmfDocutils

/-- Python `n * s` for a string `s` (string repetition). -/
def strMul (n : Nat) (s : String) : String :=
  match n with
  | 0 => ""
  | n + 1 => s ++ strMul n s

/-- Python `s.lstrip(chars)`: drop leading characters that are members of `chars`. -/
def pyLstrip (s chars : String) : String :=
  String.mk (s.data.dropWhile (fun c => chars.data.contains c))

/-- Boolean test that the first list is a leading segment of the second. -/
def leadsWith : List Char → List Char → Bool
  | [], _ => true
  | _ :: _, [] => false
  | a :: as, b :: bs => a == b && leadsWith as bs

/-- Worker for Python `str.split(sep)` with a non-empty separator: split on each
left-to-right non-overlapping occurrence of `sep`. `acc` holds the reversed
current piece. -/
def pySplitAux (sep : List Char) : List Char → List Char → List (List Char)
  | [], acc => [acc.reverse]
  | c :: rest, acc =>
    if h : 0 < sep.length ∧ leadsWith sep (c :: rest) = true then
      acc.reverse :: pySplitAux sep ((c :: rest).drop sep.length) []
    else
      pySplitAux sep rest (c :: acc)
  termination_by l _ => l.length
  decreasing_by
  · simp only [List.length_drop, List.length_cons]
    omega
  · simp only [List.length_cons]
    omega

/-- Python `s.split(sep)` for a non-empty separator `sep`. -/
def pySplit (s sep : String) : List String :=
  (pySplitAux sep.data s.data []).map String.mk

/-- Worker for Python `str.splitlines(keepends=True)` over the line boundaries
that occur in this code base (LF, CR, CRLF). -/
def splitlinesAux : List Char → List Char → List (List Char)
  | [], [] => []
  | [], acc => [acc.reverse]
  | '\r' :: '\n' :: rest, acc => (acc.reverse ++ ['\r', '\n']) :: splitlinesAux rest []
  | '\r' :: rest, acc => (acc.reverse ++ ['\r']) :: splitlinesAux rest []
  | '\n' :: rest, acc => (acc.reverse ++ ['\n']) :: splitlinesAux rest []
  | c :: rest, acc => splitlinesAux rest (c :: acc)
  termination_by l _ => l.length
  decreasing_by all_goals simp only [List.length_cons] <;> omega

/-- Python `s.splitlines(True)` (keepends). -/
def splitlinesKeepends (s : String) : List String :=
  (splitlinesAux s.data []).map String.mk

/-- Python truthiness of an optional string (`None` and `''` are falsy). -/
def pyTruthyS : Option String → Bool
  | none => false
  | some s => s != ""

/-- Python truthiness of an optional list (`None` and `[]` are falsy). -/
def pyTruthyL : Option (List Int) → Bool
  | none => false
  | some l => !l.isEmpty

/-- A Python value stored in a table cell: either `None` or a string. -/
inductive Cell where
  | pynone
  | str (s : String)
  deriving DecidableEq, Repr

/-- Python `str(v)` on a cell value (`str(None) = "None"`). -/
def Cell.pyToStr : Cell → String
  | .pynone => "None"
  | .str s => s

/-- View a cell as a Python `str`; `none` when the value is Python `None`
(on which string methods raise `AttributeError`). -/
def Cell.asStr : Cell → Option String
  | .pynone => none
  | .str s => some s

/-- Python truthiness of a cell value. -/
def Cell.truthy : Cell → Bool
  | .pynone => false
  | .str s => s != ""

/-- The `RSTDocument` helper class: a document string, the newline convention,
and the default indent, exactly the three instance attributes set by
`RSTDocument.__init__`. -/
structure RSTDocument where
  document : String
  newline : String
  default_indent : String
  deriving DecidableEq, Repr

/-- The `RSTDocument()` constructor: empty document, newline `"\n"`,
default indent of four spaces. -/
def RSTDocument.init : RSTDocument :=
  { document := "", newline := "\n", default_indent := "    " }

/-- `RSTDocument.add_text`: `self.document += text`. -/
def RSTDocument.add_text (d : RSTDocument) (text : String) : RSTDocument :=
  { d with document := d.document ++ text }

/-- `RSTDocument.__get_headingline`: build `heading` by appending
`heading_char` once per character of `title`. -/
def RSTDocument.getHeadingline (title : String) (heading_char : String) : String :=
  (List.range title.length).foldl (fun heading _ => heading ++ heading_char) ""

/-- `RSTDocument.add_part`: overline, title, underline with `'#'`, blank line. -/
def RSTDocument.add_part (d : RSTDocument) (title : String) : RSTDocument :=
  let heading := RSTDocument.getHeadingline title "#"
  let d := d.add_text (heading ++ d.newline)
  let d := d.add_text (title ++ d.newline)
  let d := d.add_text (heading ++ d.newline)
  d.add_text d.newline

/-- `RSTDocument.add_chapter`: overline, title, underline with `'*'`, blank line. -/
def RSTDocument.add_chapter (d : RSTDocument) (title : String) : RSTDocument :=
  let heading := RSTDocument.getHeadingline title "*"
  let d := d.add_text (heading ++ d.newline)
  let d := d.add_text (title ++ d.newline)
  let d := d.add_text (heading ++ d.newline)
  d.add_text d.newline

/-- `RSTDocument.add_label`: `".. _%s:" % label` then two newlines. -/
def RSTDocument.add_label (d : RSTDocument) (label : String) : RSTDocument :=
  let d := d.add_text (".. _" ++ label ++ ":")
  d.add_text (d.newline ++ d.newline)

/-- `RSTDocument.get_reference`: inline reference text for a label. -/
def RSTDocument.get_reference (label : String) (link_title : Option String) : String :=
  match link_title with
  | some t => ":ref:`" ++ t ++ " <" ++ label ++ ">`"
  | none => ":ref:`" ++ label ++ "`"

/-- `RSTDocument.get_numbered_reference`. -/
def RSTDocument.get_numbered_reference (label : String) : String :=
  ":numref:`" ++ label ++ "`"

/-- `RSTDocument.add_section`: title, underline with `'='`, blank line. -/
def RSTDocument.add_section (d : RSTDocument) (title : String) : RSTDocument :=
  let heading := RSTDocument.getHeadingline title "="
  let d := d.add_text (title ++ d.newline)
  let d := d.add_text (heading ++ d.newline)
  d.add_text d.newline

/-- `RSTDocument.add_subsection`: title, underline with `'-'`, blank line. -/
def RSTDocument.add_subsection (d : RSTDocument) (title : String) : RSTDocument :=
  let heading := RSTDocument.getHeadingline title "-"
  let d := d.add_text (title ++ d.newline)
  let d := d.add_text (heading ++ d.newline)
  d.add_text d.newline

/-- `RSTDocument.add_subsubsection`: title, underline with `'^'`, blank line. -/
def RSTDocument.add_subsubsection (d : RSTDocument) (title : String) : RSTDocument :=
  let heading := RSTDocument.getHeadingline title "^"
  let d := d.add_text (title ++ d.newline)
  let d := d.add_text (heading ++ d.newline)
  d.add_text d.newline

/-- `RSTDocument.add_paragraph`: title, underline with `'"'`, blank line. -/
def RSTDocument.add_paragraph (d : RSTDocument) (title : String) : RSTDocument :=
  let heading := RSTDocument.getHeadingline title "\""
  let d := d.add_text (title ++ d.newline)
  let d := d.add_text (heading ++ d.newline)
  d.add_text d.newline

/-- `RSTDocument.indent_text`: prepend the indent and re-join the
keepends-split lines with the indent. -/
def RSTDocument.indent_text (d : RSTDocument) (text : String) (indent : Option String) : String :=
  let curr_indent := indent.getD d.default_indent
  curr_indent ++ String.intercalate curr_indent (splitlinesKeepends text)

/-- Python `if x is not None:`-guarded appending: apply `f` to the document
and the unwrapped value when the optional is present, else leave the document
unchanged. -/
def addIfSome {α : Type} (d : RSTDocument) (o : Option α)
    (f : RSTDocument → α → RSTDocument) : RSTDocument :=
  match o with
  | some x => f d x
  | none => d

/-- Python `if x is None:`-guarded appending. -/
def addIfNone {α : Type} (d : RSTDocument) (o : Option α)
    (f : RSTDocument → RSTDocument) : RSTDocument :=
  match o with
  | none => f d
  | some _ => d

/-- `RSTDocument.add_code`: a `.. code-block::` directive with optional
`:linenos:` and `:emphasize-lines:` options followed by the indented code. -/
def RSTDocument.add_code (d : RSTDocument) (code_block : String) (code_type : String)
    (show_line_numbers : Bool) (emphasize_lines : Option (List Int)) : RSTDocument :=
  let d := d.add_text (".. code-block:: " ++ code_type ++ d.newline)
  let d := if show_line_numbers then d.add_text (d.indent_text ":linenos:" none ++ d.newline) else d
  let d := addIfSome d emphasize_lines (fun d el =>
    let d := d.add_text (d.indent_text ":emphasize-lines: " none)
    let d := (List.range el.length).foldl (fun (d : RSTDocument) i =>
        let d := d.add_text (toString (el.getD i 0))
        if i < el.length - 1 then d.add_text "," else d) d
    d.add_text d.newline)
  let d := d.add_text d.newline
  let d := d.add_text (d.indent_text code_block none)
  let d := d.add_text d.newline
  d.add_text d.newline

/-- Content passed to `RSTDocument.add_list`: a possibly nested list whose
non-list items are rendered with `'%s'` (modelled by their string rendering). -/
inductive NestedList where
  | item (s : String)
  | sub (l : List NestedList)

mutual

/-- `RSTDocument.add_list`: recursively render a nested list, then append a
trailing newline. -/
def RSTDocument.add_list (d : RSTDocument) (content : List NestedList)
    (indent : Option String) (item_symbol : String) : RSTDocument :=
  let ind := indent.getD ""
  let d2 := RSTDocument.add_list_go d content ind item_symbol
  d2.add_text d2.newline
  termination_by (sizeOf content, 1)

/-- The `for item in content` loop body of `RSTDocument.add_list`. -/
def RSTDocument.add_list_go (d : RSTDocument) (content : List NestedList)
    (ind : String) (item_symbol : String) : RSTDocument :=
  match content with
  | [] => d
  | item :: rest =>
    let d2 := match item with
      | .sub l => RSTDocument.add_list d l (some (ind ++ d.default_indent)) item_symbol
      | .item s => d.add_text (ind ++ item_symbol ++ " " ++ s ++ d.newline)
    RSTDocument.add_list_go d2 rest ind item_symbol
  termination_by (sizeOf content, 0)

end

/-- The `RSTDocument.ADMONITIONS` class constant. -/
def RSTDocument.ADMONITIONS : List String :=
  ["attention", "caution", "danger", "error", "hint", "important", "note", "tip", "warning"]

/-- The `RSTDocument.ALIGN` class constant. -/
def RSTDocument.ALIGN : List String :=
  ["top", "middle", "bottom", "left", "center", "right"]

/-- `RSTDocument.add_admonitions`: an admonition directive with indented body;
`text` may be a string or another `RSTDocument`. -/
def RSTDocument.add_admonitions (d : RSTDocument) (atype : String)
    (text : Sum String RSTDocument) : RSTDocument :=
  let curr_text := match text with | .inl s => s | .inr t => t.document
  let d := d.add_text d.newline
  let d := d.add_text (".. " ++ atype ++ "::")
  let d := d.add_text d.newline
  let d := d.add_text (d.indent_text curr_text none)
  let d := d.add_text d.newline
  d.add_text d.newline

/-- `RSTDocument.add_include`: a `.. include::` directive. -/
def RSTDocument.add_include (d : RSTDocument) (filename : String)
    (indent : Option String) : RSTDocument :=
  let ind := indent.getD ""
  let d := d.add_text (ind ++ ".. include:: " ++ filename)
  d.add_text d.newline

/-- Tail of `RSTDocument.add_figure` after the `align` handling: the optional
`:target:` option, blank line, optional caption and legend, final blank line. -/
def RSTDocument.add_figure_rest (d : RSTDocument)
    (caption legend : Option (Sum String RSTDocument)) (target : Option String) :
    RSTDocument × Option String :=
  let d := addIfSome d target (fun d t =>
    d.add_text (d.indent_text (":target: " ++ t) none ++ d.newline))
  let d := d.add_text d.newline
  let d := addIfSome d caption (fun d c =>
    let curr_caption := match c with | .inl s => s | .inr doc => doc.document
    d.add_text (d.indent_text curr_caption none ++ d.newline))
  let d := addIfSome d legend (fun d lg =>
    let d := addIfNone d caption (fun d =>
      d.add_text (d.indent_text ".. " none ++ d.newline ++ d.default_indent ++ d.newline))
    let curr_legend := match lg with | .inl s => s | .inr doc => doc.document
    d.add_text (d.indent_text curr_legend none ++ d.newline))
  (d.add_text d.newline, none)

/-- `RSTDocument.add_figure`: a `.. figure::` directive. The `ValueError` on an
invalid `align` is raised after some options were already appended, so the
returned document keeps those partial appends, as in the mutated Python object. -/
def RSTDocument.add_figure (d : RSTDocument) (img : String)
    (caption legend : Option (Sum String RSTDocument)) (alt : Option String)
    (height width scale : Option Int) (align : Option String) (target : Option String) :
    RSTDocument × Option String :=
  let d := d.add_text d.newline
  let d := d.add_text (".. figure:: " ++ img)
  let d := d.add_text d.newline
  let d := addIfSome d scale (fun d sc =>
    d.add_text (d.indent_text (":scale: " ++ toString sc) none ++ " %" ++ d.newline))
  let d := addIfSome d alt (fun d a =>
    d.add_text (d.indent_text (":alt: " ++ a) none ++ d.newline))
  let d := addIfSome d height (fun d hh =>
    d.add_text (d.indent_text (":height: " ++ toString hh ++ " px") none ++ d.newline))
  let d := addIfSome d width (fun d w =>
    d.add_text (d.indent_text (":width: " ++ toString w ++ " px") none ++ d.newline))
  match align with
  | some al =>
    if RSTDocument.ALIGN.contains al then
      let d := d.add_text (d.indent_text (":align: " ++ al) none ++ d.newline)
      RSTDocument.add_figure_rest d caption legend target
    else (d, some "ValueError")
  | none => RSTDocument.add_figure_rest d caption legend target

/-- `RSTDocument.add_sidebar`: a `.. sidebar::` directive with optional
subtitle and indented body. -/
def RSTDocument.add_sidebar (d : RSTDocument) (text : Sum String RSTDocument)
    (title : String) (subtitle : Option String) : RSTDocument :=
  let d := d.add_text d.newline
  let d := d.add_text (".. sidebar:: " ++ title ++ d.newline)
  let d := addIfSome d subtitle (fun d st =>
    d.add_text (d.indent_text (":subtitle: " ++ st) none ++ d.newline))
  let d := d.add_text d.newline
  let curr_text := match text with | .inl s => s | .inr t => t.document
  d.add_text (d.indent_text curr_text none ++ d.newline ++ d.newline)

/-- `RSTDocument.add_topic` (the source emits a `.. sidebar::` directive here
as well). -/
def RSTDocument.add_topic (d : RSTDocument) (text : Sum String RSTDocument)
    (title : String) : RSTDocument :=
  let d := d.add_text d.newline
  let d := d.add_text (".. sidebar:: " ++ title ++ d.newline)
  let d := d.add_text d.newline
  let curr_text := match text with | .inl s => s | .inr t => t.document
  d.add_text (d.indent_text curr_text none ++ d.newline ++ d.newline)

/-- `RSTDocument.add_spec`: add the YAML rendering of a specification as a
`yaml` code block. `RSTDocument.spec_to_yaml` delegates to external json/yaml
libraries, so its output is abstracted here as the input string `spec_yaml`;
`add_spec` itself is `add_code(spec_to_yaml(spec), code_type='yaml')` with the
remaining `add_code` defaults. -/
def RSTDocument.add_spec (d : RSTDocument) (spec_yaml : String) : RSTDocument :=
  d.add_code spec_yaml "yaml" true none

/-- `RSTDocument.add_latex_clearpage`: a raw-latex clearpage block. -/
def RSTDocument.add_latex_clearpage (d : RSTDocument) : RSTDocument :=
  let d := d.add_text d.newline
  let d := d.add_text (".. raw:: latex" ++ d.newline ++ d.newline)
  d.add_text (d.default_indent ++ "\\clearpage \\newpage" ++ d.newline ++ d.newline)

/-- `RSTSectionLabelHelper.get_section_label`. -/
def RSTSectionLabelHelper.get_section_label (neurodata_type : String) : String :=
  "sec-" ++ neurodata_type

/-- The `RSTTable` helper class: the private `__table` row buffer, the private
`__cols` column-label list, and the `newline` attribute. -/
structure RSTTable where
  table : List (List Cell)
  cols : List String
  newline : String
  deriving DecidableEq, Repr

/-- The `RSTTable(cols)` constructor: `cols` is either the label list or an
`int` column count expanded to that many `''` labels (a negative count yields
an empty label list, as Python list repetition does). -/
def RSTTable.init (cols : Sum (List String) Int) : RSTTable :=
  { table := []
    cols := match cols with
      | .inl l => l
      | .inr n => List.replicate n.toNat ""
    newline := "\n" }

/-- `RSTTable.num_rows`. -/
def RSTTable.num_rows (t : RSTTable) : Nat := t.table.length

/-- `RSTTable.num_cols`. -/
def RSTTable.num_cols (t : RSTTable) : Nat := t.cols.length

/-- Python list indexing: normalize a possibly negative index; `none` is an
`IndexError`. -/
def pyIdx (n : Nat) (i : Int) : Option Nat :=
  let j := if i < 0 then i + n else i
  if 0 ≤ j ∧ j < n then some j.toNat else none

/-- `RSTTable.set_cell`: bound checks raising `ValueError`, then
`self.__table[row][col] = text` (which itself raises `IndexError` for an index
that is still out of range, e.g. a negative one or a ragged row). The returned
table is unchanged whenever an exception is raised. -/
def RSTTable.set_cell (t : RSTTable) (row col : Int) (text : Cell) :
    RSTTable × Option String :=
  if (t.cols.length : Int) ≤ col then (t, some "ValueError")
  else if (t.table.length : Int) ≤ row then (t, some "ValueError")
  else
    match pyIdx t.table.length row with
    | none => (t, some "IndexError")
    | some ri =>
      let r := t.table.getD ri []
      match pyIdx r.length col with
      | none => (t, some "IndexError")
      | some ci => ({ t with table := t.table.set ri (r.set ci text) }, none)

/-- `RSTTable.add_row`: default the row to `num_cols` empty strings when
`row_values` is `None`, replace `None` cells when `replace_none` is truthy
(`enumerate(row_values)` raises `TypeError` when `row_values` is `None`),
convert cells with `str` when requested, and append the row. -/
def RSTTable.add_row (t : RSTTable) (row_values : Option (List Cell))
    (replace_none : Cell) (convert_to_str : Bool) : RSTTable × Option String :=
  let row_vals := row_values.getD (List.replicate t.cols.length (Cell.str ""))
  if replace_none.truthy ∧ row_values = none then (t, some "TypeError")
  else
    let row_vals := if replace_none.truthy then
        row_vals.map (fun v => if v = Cell.pynone then replace_none else v)
      else row_vals
    let row_vals := if convert_to_str then row_vals.map (fun v => Cell.str v.pyToStr) else row_vals
    ({ t with table := t.table ++ [row_vals] }, none)

/-- `RSTTable.set_col`: bound check raising `ValueError`, then
`self.__cols[col] = text` (negative indices index from the end; an
out-of-range negative index is an `IndexError`). -/
def RSTTable.set_col (t : RSTTable) (col : Int) (text : String) :
    RSTTable × Option String :=
  if (t.cols.length : Int) ≤ col then (t, some "ValueError")
  else
    match pyIdx t.cols.length col with
    | none => (t, some "IndexError")
    | some ci => ({ t with cols := t.cols.set ci text }, none)

/-- `RSTTable.table_row_divider`: `"    "`, then `'+' + (cw+2)*style` per
column, then `"+\n"`. -/
def RSTTable.table_row_divider (col_widths : List Nat) (style : String) : String :=
  let out := "    "
  let out := col_widths.foldl (fun out cw => out ++ ("+" ++ strMul (cw + 2) style)) out
  out ++ "+\n"

/-- `RSTTable.normalize_cell`: `" " + cell + (col_width - len(cell) + 1) * " "`
(a non-positive repeat count yields the empty string, as in Python). -/
def RSTTable.normalize_cell (cell : String) (col_width : Nat) : String :=
  " " ++ cell ++ strMul ((col_width : Int) - cell.length + 1).toNat " "

/-- `RSTTable.cell_len`: the maximum line length over the newline-split cell
text (Python `max` over the non-empty `cell.split(newline)`). -/
def RSTTable.cell_len (cell : String) (newline : String) : Nat :=
  ((pySplit cell newline).map String.length).foldl Nat.max 0

/-- One output line of `RSTTable.render_row` (the body of the
`for l in range(num_lines)` loop): `'    |'` followed by each column's
normalized `l`-th cell line and a `'|'`. -/
def RSTTable.render_row_line (col_widths : List Nat) (row_lines : List (List String))
    (l : Nat) : String :=
  (List.range row_lines.length).foldl (fun row_text ri =>
    row_text ++ (RSTTable.normalize_cell ((row_lines.getD ri []).getD l "")
      (col_widths.getD ri 0) ++ "|")) "    |"

/-- `RSTTable.render_row`: split each cell on `newline` and emit
`num_lines = max(len(lines of cell))` output lines. Python raises `ValueError`
(`max` of an empty sequence) for an empty row and `IndexError`
(`col_widths[ri]`) when `col_widths` is shorter than the row; both are `none`
here. The dead `for r in row: ... max(num_lines, ...)` loop of the source
(its result is discarded) has no effect and is omitted. -/
def RSTTable.render_row (col_widths : List Nat) (row : List String)
    (newline : String) : Option String :=
  let row_lines := row.map (fun r => pySplit r newline)
  match row with
  | [] => none
  | _ :: _ =>
    let num_lines := (row_lines.map List.length).foldl Nat.max 0
    if row.length ≤ col_widths.length then
      some ((List.range num_lines).foldl (fun row_text l =>
        row_text ++ (RSTTable.render_row_line col_widths row_lines l ++ newline)) "")
    else none

/-- Python `zip(*rows)` for lists of naturals: transpose truncated to the
shortest row. -/
def pyZipT (rows : List (List Nat)) : List (List Nat) :=
  match rows with
  | [] => []
  | r :: rs =>
    let m := rs.foldl (fun m x => Nat.min m x.length) r.length
    (List.range m).map (fun i => (r :: rs).map (fun row => row.getD i 0))

/-- The `col_widths` computation of `RSTTable.render` (line 1359 of the
source): `[max(out) + 2 for out in map(list, zip(*[[cell_len(item, nl) for
item in row] for row in ([cols] + table)]))]`. -/
def RSTTable.render_col_widths (header : List String) (strTable : List (List String))
    (nl : String) : List Nat :=
  (pyZipT ((header :: strTable).map (fun row => row.map
    (fun item => RSTTable.cell_len item nl)))).map (fun out => out.foldl Nat.max 0 + 2)

/-- View all stored rows as Python strings; `none` when some cell is Python
`None` (on which `cell_len`'s `split` raises `AttributeError`). -/
def RSTTable.strRows (t : RSTTable) : Option (List (List String)) :=
  t.table.mapM (fun row => row.mapM Cell.asStr)

/-- The directive prelude of `RSTTable.render` (source lines 1363-1379): the
leading newline, the optional `.. tabularcolumns::`, label, `.. table::` line
with optional title, optional `:widths:` and `:class:` options, and the blank
line before the table body. -/
def RSTTable.render_prelude (doc : RSTDocument) (title table_class : Option String)
    (widths : Option (List Int)) (table_ref latex_tablecolumns : Option String) :
    RSTDocument :=
  let doc := doc.add_text doc.newline
  let doc := if pyTruthyS latex_tablecolumns then
      doc.add_text (".. tabularcolumns:: " ++ latex_tablecolumns.getD "" ++ doc.newline)
    else doc
  let doc := addIfSome doc table_ref (fun doc r => doc.add_label r)
  let doc := doc.add_text ".. table::"
  let doc := if pyTruthyS title then doc.add_text (" " ++ title.getD "") else doc
  let doc := doc.add_text doc.newline
  let doc := if pyTruthyL widths then
      let dw := doc.add_text "    :widths:"
      let dw := (widths.getD []).foldl (fun (dw : RSTDocument) i =>
        dw.add_text (" " ++ toString i)) dw
      dw.add_text dw.newline
    else doc
  let doc := addIfSome doc table_class (fun doc tc =>
    doc.add_text ("    :class: " ++ tc ++ doc.newline))
  doc.add_text doc.newline

/-- The data-row loop of `RSTTable.render` (source lines 1387-1389): append
each rendered row followed by a `'-'` divider; `none` models the exception
`render_row` may raise. -/
def RSTTable.render_rows (doc : RSTDocument) (col_widths : List Nat)
    (strT : List (List String)) : Option RSTDocument :=
  strT.foldlM (fun (doc : RSTDocument) row =>
    match RSTTable.render_row col_widths row doc.newline with
    | none => none
    | some rt =>
      some ((doc.add_text rt).add_text (RSTTable.table_row_divider col_widths "-"))) doc

/-- `RSTTable.render`: render the table into an `RSTDocument`. The source
computes `col_widths` from `rst_doc.newline` on line 1359, before the
`rst_doc = rst_doc if rst_doc is not None else RSTDocument()` default on line
1362, so a `None` `rst_doc` raises `AttributeError` whenever the empty-table
early return is not taken. -/
def RSTTable.render (t : RSTTable) (rst_doc : Option RSTDocument) (title : Option String)
    (table_class : Option String) (widths : Option (List Int)) (ignore_empty : Bool)
    (table_ref : Option String) (latex_tablecolumns : Option String) :
    Except String RSTDocument :=
  if t.table.length = 0 ∧ ignore_empty then
    .ok (rst_doc.getD RSTDocument.init)
  else
    match rst_doc with
    | none => .error "AttributeError: NoneType object has no attribute newline"
    | some doc0 =>
      match t.strRows with
      | none => .error "AttributeError: non-str cell has no attribute split"
      | some strT =>
        let col_widths := RSTTable.render_col_widths t.cols strT doc0.newline
        let doc := RSTTable.render_prelude doc0 title table_class widths table_ref
          latex_tablecolumns
        let doc := doc.add_text (RSTTable.table_row_divider col_widths "-")
        match RSTTable.render_row col_widths t.cols doc.newline with
        | none => .error "ValueError or IndexError in render_row"
        | some hdr =>
          let doc := doc.add_text hdr
          let doc := doc.add_text (RSTTable.table_row_divider col_widths "=")
          match RSTTable.render_rows doc col_widths strT with
          | none => .error "ValueError or IndexError in render_row"
          | some doc =>
            let doc := doc.add_text doc.newline
            let doc := doc.add_text doc.newline
            .ok doc

/-- `RSTDocument.add_table`: `rst_table.render(self, **kwargs)`. -/
def RSTDocument.add_table (d : RSTDocument) (rst_table : RSTTable) (title : Option String)
    (table_class : Option String) (widths : Option (List Int)) (ignore_empty : Bool)
    (table_ref : Option String) (latex_tablecolumns : Option String) :
    Except String RSTDocument :=
  rst_table.render (some d) title table_class widths ignore_empty table_ref latex_tablecolumns

/-- A Python quantity value from a format specification: an `int` or a string. -/
inductive PyQuantity where
  | int (n : Int)
  | str (s : String)
  deriving DecidableEq, Repr

/-- The `qdict` literal of `SpecToRST.quantity_to_string`. -/
def SpecToRST.qdict : List (String × String) :=
  [("*", "0 or more"), ("zero_or_more", "0 or more"), ("+", "1 or more"),
   ("one_or_more", "1 or more"), ("?", "0 or 1"), ("zero_or_one", "0 or 1")]

/-- `SpecToRST.quantity_to_string`: `str(quantity)` for an int, a `qdict`
lookup otherwise (raising `KeyError` on a missing key). -/
def SpecToRST.quantity_to_string : PyQuantity → Except String String
  | .int n => .ok (toString n)
  | .str s =>
    match SpecToRST.qdict.lookup s with
    | some v => .ok v
    | none => .error ("KeyError: " ++ s)

/-- `SpecToRST.clean_schema_doc_string`: html-tag cleanup plus the
COMMENT/MORE_INFO/NOTE replacements and an optional postfix. -/
def SpecToRST.clean_schema_doc_string (doc_str : String) ( add_prefix add_postifix : Option String)
    (rst_format : String) (remove_html_tags : Bool) : String :=
  let pfx := add_prefix.getD " "
  let c := doc_str
  let c := if remove_html_tags then
      let c := c.replace "&lt;" "<"
      let c := c.replace "&gt;" ">"
      let c := c.replace "<b>" " **"
      let c := c.replace "</b>" "** "
      let c := c.replace "<i>" " *"
      let c := c.replace "</i>" "* "
      c.replace ":blue:" ""
    else c
  let c := c.replace "COMMENT:" (pfx ++ rst_format ++ "Comment:" ++ rst_format ++ " ")
  let c := c.replace "MORE_INFO:" (pfx ++ rst_format ++ "Additional Information:" ++ rst_format ++ " ")
  let c := c.replace "NOTE:" (pfx ++ " " ++ rst_format ++ "Additional Information:" ++ rst_format ++ " ")
  match add_postifix with
  | some p => c ++ p
  | none => c

/-- An hdmf `RefSpec`: a reference type and a target type name. -/
structure RefSpecData where
  reftype : String
  target_type : String
  deriving DecidableEq, Repr

/-- An hdmf `dtype` descriptor: a primitive type string, a `RefSpec`, or a
compound type (a list of `(name, doc, dtype)` elements). -/
inductive DType where
  | prim (s : String)
  | ref (r : RefSpecData)
  | compound (elems : List (String × String × DType))

/-- `SpecToRST.render_data_type`: text for a dtype descriptor, recursing into
compound element dtypes. -/
def SpecToRST.render_data_type : DType → String
  | .compound elems =>
    let res := "Compound data type with the following elements: \n"
    let res := elems.attach.foldl (fun res it =>
      res ++ ("    * **" ++ it.1.1 ++ ":** " ++ it.1.2.1 ++ " (*dtype=* " ++
        SpecToRST.render_data_type it.1.2.2 ++ " ) \n")) res
    res ++ "\n"
  | .ref dtype =>
    dtype.reftype ++ " reference to " ++
      RSTDocument.get_reference (RSTSectionLabelHelper.get_section_label dtype.target_type)
        (some dtype.target_type)
  | .prim s => s
  decreasing_by
  obtain ⟨⟨a, b, c⟩, hm⟩ := it
  have h := List.sizeOf_lt_of_mem hm
  simp only [Prod.mk.sizeOf_spec, DType.compound.sizeOf_spec] at h ⊢
  omega

/-- The attributes of an hdmf spec node that `rstdoc.py` reads. `hdmf.spec` is
an external dependency of this repository; a spec node is a dict-like object
and each field below holds `spec.get(key, None)` for the corresponding key.
Fields whose values the code only ever feeds to `str(...)` (dims, shape,
linkable, required, value, default_value) hold that string rendering.
`target_type` holds `spec['target_type']` (for links), which is also the value
of `spec[spec.type_key()]`. -/
structure SpecData where
  name : Option String
  data_type_def : Option String
  data_type_inc : Option String
  doc : String
  quantity : Option PyQuantity
  dtype : Option DType
  dims : Option String
  shape : Option String
  linkable : Option String
  required : Option String
  value : Option String
  default_value : Option String
  default_name : Option String
  target_type : String

/-- An hdmf `DatasetSpec` subtree: its own fields plus its attribute specs. -/
structure DatasetTree where
  d : SpecData
  attributes : List SpecData

/-- An hdmf `GroupSpec` subtree: its own fields plus its attribute, dataset,
link and subgroup specs. Specification trees are finite and acyclic (an
assumption inherited from the external spec library), which this inductive
type captures. -/
inductive GroupTree where
  | mk (d : SpecData) (attributes : List SpecData) (datasets : List DatasetTree)
      (links : List SpecData) (groups : List GroupTree)

/-- Field projections of `GroupTree`. -/
def GroupTree.d : GroupTree → SpecData
  | .mk d _ _ _ _ => d

def GroupTree.attributes : GroupTree → List SpecData
  | .mk _ a _ _ _ => a

def GroupTree.datasets : GroupTree → List DatasetTree
  | .mk _ _ ds _ _ => ds

def GroupTree.links : GroupTree → List SpecData
  | .mk _ _ _ ls _ => ls

def GroupTree.groups : GroupTree → List GroupTree
  | .mk _ _ _ _ gs => gs

/-- A spec node as passed around by `rstdoc.py`: one of the four hdmf spec
classes the code dispatches on with `isinstance`. -/
inductive Spec where
  | group (g : GroupTree)
  | dataset (ds : DatasetTree)
  | attr (a : SpecData)
  | link (l : SpecData)

/-- The dict-like fields of a spec node. -/
def Spec.sdata : Spec → SpecData
  | .group g => g.d
  | .dataset ds => ds.d
  | .attr a => a
  | .link l => l

/-- `isinstance(spec, GroupSpec)`. -/
def Spec.isGroup : Spec → Bool
  | .group _ => true
  | _ => false

/-- `isinstance(spec, DatasetSpec)`. -/
def Spec.isDataset : Spec → Bool
  | .dataset _ => true
  | _ => false

/-- `isinstance(spec, AttributeSpec)`. -/
def Spec.isAttribute : Spec → Bool
  | .attr _ => true
  | _ => false

/-- `isinstance(spec, LinkSpec)`. -/
def Spec.isLink : Spec → Bool
  | .link _ => true
  | _ => false

/-- `spec.attributes` for the node kinds that have attributes. -/
def Spec.childAttributes : Spec → List SpecData
  | .group g => g.attributes
  | .dataset ds => ds.attributes
  | _ => []

/-- `spec.datasets` of a group. -/
def Spec.childDatasets : Spec → List DatasetTree
  | .group g => g.datasets
  | _ => []

/-- `spec.links` of a group. -/
def Spec.childLinks : Spec → List SpecData
  | .group g => g.links
  | _ => []

/-- `spec.groups` of a group. -/
def Spec.childGroups : Spec → List GroupTree
  | .group g => g.groups
  | _ => []

/-- `SpecToRST.spec_basetype_name` for the four spec classes that occur in a
specification tree (the `RefSpec` branch and the trailing `ValueError` of the
source concern objects that never appear in these trees). -/
def SpecToRST.spec_basetype_name : Spec → String
  | .group _ => "Group"
  | .dataset _ => "Dataset"
  | .attr _ => "Attribute"
  | .link _ => "Link"

/-- hdmf `spec.def_key()`: the dictionary key naming the defined data type. -/
def defKey : String := "data_type_def"

/-- hdmf `spec.inc_key()`: the dictionary key naming the included data type. -/
def incKey : String := "data_type_inc"

/-- The `SpecToRST.CUSTOM_LATEX_TABLE_COLUMNS` class constant. -/
def SpecToRST.CUSTOM_LATEX_TABLE_COLUMNS : String :=
  "|p\x7b4cm\x7d|p\x7b1cm\x7d|p\x7b10cm\x7d|"

/-- `SpecToRST.render_specification_properties`: assemble the RST property
list for a spec node. The only failure mode is the `KeyError` that
`quantity_to_string` may raise, hence the `Except`. The source's misspelled
ignore key `'linnkable'` (dataset branch) and item label `'**Reuqired:**'`
(attribute branch) are kept as written. -/
def SpecToRST.render_specification_properties (spec : Spec) (newline : String)
    (ignore_props prepend_items append_items : Option (List String)) :
    Except String String := do
  let sd := spec.sdata
  let ignore_keys := ignore_props.getD []
  let qi ← (if sd.quantity ≠ none ∧ ¬ ignore_keys.contains "quantity" then
      match sd.quantity with
      | some q => (SpecToRST.quantity_to_string q).map (fun s => ["**Quantity:** " ++ s])
      | none => pure []
    else pure ([] : List String))
  let spec_prop_list := prepend_items.getD []
  let spec_prop_list := spec_prop_list ++
    (if spec.isLink then
      ["**Target Type** " ++ RSTDocument.get_reference
        (RSTSectionLabelHelper.get_section_label sd.target_type) (some sd.target_type)]
     else [])
  let spec_prop_list := spec_prop_list ++
    (if spec.isDataset then
      (if sd.data_type_def ≠ none ∧ ¬ ignore_keys.contains defKey then
        ["**Neurodata Type:** " ++ sd.data_type_def.getD ""] else []) ++
      (if sd.data_type_inc ≠ none ∧ ¬ ignore_keys.contains incKey then
        ["**Extends:** " ++ RSTDocument.get_reference
          (RSTSectionLabelHelper.get_section_label (sd.data_type_inc.getD ""))
          (some (sd.data_type_inc.getD ""))] else []) ++
      (if ¬ ignore_keys.contains "primitive_type" then
        ["**Primitive Type:** " ++ SpecToRST.spec_basetype_name spec] else []) ++
      qi ++
      (if sd.dtype.isSome ∧ ¬ ignore_keys.contains "dtype" then
        ["**Data Type:** " ++ SpecToRST.render_data_type (sd.dtype.getD (.prim ""))] else []) ++
      (if sd.dims ≠ none ∧ ¬ ignore_keys.contains "dims" then
        ["**Dimensions:** " ++ sd.dims.getD ""] else []) ++
      (if sd.shape ≠ none ∧ ¬ ignore_keys.contains "shape" then
        ["**Shape:** " ++ sd.shape.getD ""] else []) ++
      (if sd.linkable ≠ none ∧ ¬ ignore_keys.contains "linnkable" then
        ["**Linkable:** " ++ sd.linkable.getD ""] else [])
     else [])
  let spec_prop_list := spec_prop_list ++
    (if spec.isGroup then
      (if sd.data_type_def ≠ none ∧ ¬ ignore_keys.contains defKey then
        ["**Neurodata Type:** " ++ RSTDocument.get_reference
          (RSTSectionLabelHelper.get_section_label (sd.data_type_def.getD ""))
          (some (sd.data_type_def.getD ""))] else []) ++
      (if sd.data_type_inc ≠ none ∧ ¬ ignore_keys.contains incKey then
        ["**Extends:** " ++ RSTDocument.get_reference
          (RSTSectionLabelHelper.get_section_label (sd.data_type_inc.getD ""))
          (some (sd.data_type_inc.getD ""))] else []) ++
      (if ¬ ignore_keys.contains "primitive_type" then
        ["**Primitive Type:** " ++ SpecToRST.spec_basetype_name spec] else []) ++
      qi ++
      (if sd.linkable ≠ none ∧ ¬ ignore_keys.contains "linkable" then
        ["**Linkable:** " ++ sd.linkable.getD ""] else [])
     else [])
  let spec_prop_list := spec_prop_list ++
    (if spec.isAttribute then
      (if ¬ ignore_keys.contains "primitive_type" then
        ["**Primitive Type:** " ++ SpecToRST.spec_basetype_name spec] else []) ++
      (if sd.dtype.isSome ∧ ¬ ignore_keys.contains "dtype" then
        ["**Data Type:** " ++ SpecToRST.render_data_type (sd.dtype.getD (.prim ""))] else []) ++
      (if sd.dims ≠ none ∧ ¬ ignore_keys.contains "dims" then
        ["**Dimensions:** " ++ sd.dims.getD ""] else []) ++
      (if sd.shape ≠ none ∧ ¬ ignore_keys.contains "shape" then
        ["**Shape:** " ++ sd.shape.getD ""] else []) ++
      (if sd.required ≠ none ∧ ¬ ignore_keys.contains "required" then
        ["**Reuqired:** " ++ sd.required.getD ""] else []) ++
      (if sd.value ≠ none ∧ ¬ ignore_keys.contains "value" then
        ["**Value:** " ++ sd.value.getD ""] else []) ++
      (if sd.default_value ≠ none ∧ ¬ ignore_keys.contains "default_value" then
        ["**Default Value:** " ++ sd.default_value.getD ""] else [])
     else [])
  let spec_prop_list := spec_prop_list ++
    (if sd.default_name ≠ none then ["**Default Name:** " ++ sd.default_name.getD ""] else []) ++
    (if sd.name ≠ none then ["**Name:** " ++ sd.name.getD ""] else [])
  let spec_prop_list := spec_prop_list ++ append_items.getD []
  let spec_doc := ""
  let spec_doc := if spec_prop_list.length > 0 then
      spec_doc ++ newline ++
        spec_prop_list.foldl (fun acc dp => acc ++ (newline ++ "- " ++ dp)) "" ++ newline
    else spec_doc
  return spec_doc

mutual

/-- Number of nodes of a group subtree (used as a recursion bound for the
tree-walking renderers). -/
def GroupTree.gsize : GroupTree → Nat
  | .mk _ attrs dsets links groups =>
    1 + attrs.length + (dsets.map (fun t => 1 + t.attributes.length)).sum + links.length +
      GroupTree.gsizeList groups

/-- Total size of a list of group subtrees. -/
def GroupTree.gsizeList : List GroupTree → Nat
  | [] => 0
  | g :: gs => GroupTree.gsize g + GroupTree.gsizeList gs

end

/-- Number of nodes of a spec subtree. -/
def Spec.size : Spec → Nat
  | .group g => g.gsize
  | .dataset ds => 1 + ds.attributes.length
  | .attr _ => 1
  | .link _ => 1

/-- One step of the recursive-children loops of `SpecToRST.render_spec_table`:
thread the table through a recursive call, propagating fuel exhaustion
(`none`) and a raised exception (`some (.error e)`). -/
def specTableStep (rec : Spec → RSTTable → Option (Except String RSTTable))
    (acc : Option (Except String RSTTable)) (child : Spec) :
    Option (Except String RSTTable) :=
  match acc with
  | none => none
  | some (.error e) => some (.error e)
  | some (.ok t) => rec child t

/-- `SpecToRST.render_spec_table`, with an explicit fuel bound on the
recursion depth. `none` means the fuel ran out (never, for fuel at least
`sizeOf spec`); `some (.error e)` models a raised Python exception (the only
source is the `KeyError` of `quantity_to_string`); Python's default arguments
are written out at each recursive call site exactly as the source leaves them
implicit. -/
def SpecToRST.render_spec_tableF :
    Nat → Spec → Option RSTTable → String → Nat → Bool → Bool → Bool → Bool → Bool → Bool →
    Option (Except String RSTTable)
  | 0, _, _, _, _, _, _, _, _, _, _ => none
  | fuel + 1, spec, rst_table, depth_char, depth, show_subattributes, show_subdatasets,
      show_sublinks, show_subgroups, recursive_subgroups, appreviate_main_object_doc =>
    let tbl := rst_table.getD (RSTTable.init (.inl ["Id", "Type", "Description"]))
    let spec_type := SpecToRST.spec_basetype_name spec
    let sd := spec.sdata
    let depth_str := strMul depth depth_char
    let spec_name :=
      if sd.name ≠ none then depth_str ++ sd.name.getD ""
      else if sd.data_type_def ≠ none then depth_str ++ "<" ++ sd.data_type_def.getD "" ++ ">"
      else if sd.data_type_inc ≠ none then
        depth_str ++ "<" ++ RSTDocument.get_reference
          (RSTSectionLabelHelper.get_section_label (sd.data_type_inc.getD ""))
          (some (sd.data_type_inc.getD "")) ++ ">"
      else
        depth_str ++ "<" ++ RSTDocument.get_reference
          (RSTSectionLabelHelper.get_section_label sd.target_type)
          (some sd.target_type) ++ ">"
    let spec_docE : Except String String :=
      if appreviate_main_object_doc ∧ depth = 0 then
        match SpecToRST.render_specification_properties spec tbl.newline
            (some ["primitive_type"]) none none with
        | .error e => .error e
        | .ok props => .ok ("Top level " ++ spec_type ++ " for " ++
            pyLstrip spec_name depth_str ++ props)
      else
        match SpecToRST.render_specification_properties spec tbl.newline
            (some ["primitive_type"]) none none with
        | .error e => .error e
        | .ok props => .ok (SpecToRST.clean_schema_doc_string sd.doc
            (some (tbl.newline ++ tbl.newline)) none "**" true ++ props)
    match spec_docE with
    | .error e => some (.error e)
    | .ok spec_doc =>
      let tbl := (tbl.add_row
        (some [Cell.str spec_name, Cell.str spec_type, Cell.str spec_doc])
        (Cell.str "") true).1
      let acc : Option (Except String RSTTable) := some (.ok tbl)
      let acc := if (spec.isDataset || spec.isGroup) && show_subattributes then
          (spec.childAttributes.map Spec.attr).foldl
            (specTableStep (fun child t => SpecToRST.render_spec_tableF fuel child (some t)
              depth_char (depth + 1) true true true false false true)) acc
        else acc
      let acc := if spec.isGroup && show_subdatasets then
          (spec.childDatasets.map Spec.dataset).foldl
            (specTableStep (fun child t => SpecToRST.render_spec_tableF fuel child (some t)
              depth_char (depth + 1) true true true false false true)) acc
        else acc
      let acc := if spec.isGroup && show_sublinks then
          (spec.childLinks.map Spec.link).foldl
            (specTableStep (fun child t => SpecToRST.render_spec_tableF fuel child (some t)
              depth_char (depth + 1) true true true false false true)) acc
        else acc
      let acc := if show_subgroups && spec.isGroup then
          if recursive_subgroups then
            (spec.childGroups.map Spec.group).foldl
              (specTableStep (fun child t => SpecToRST.render_spec_tableF fuel child (some t)
                depth_char (depth + 1) show_subattributes show_subdatasets true
                show_subgroups false true)) acc
          else
            (spec.childGroups.map Spec.group).foldl
              (specTableStep (fun child t => SpecToRST.render_spec_tableF fuel child (some t)
                depth_char (depth + 1) false false true false recursive_subgroups true)) acc
        else acc
      acc

/-- A flattened type hierarchy as produced by hdmf
`SpecCatalog.get_full_hierarchy()`: an ordered dict mapping each type name to
the hierarchy of its subtypes. -/
inductive TypeHierarchy where
  | mk (items : List (String × TypeHierarchy))

/-- The item list of a type hierarchy. -/
def TypeHierarchy.items : TypeHierarchy → List (String × TypeHierarchy)
  | .mk l => l

mutual

/-- Number of nodes of a type hierarchy (a recursion bound for the walker). -/
def TypeHierarchy.tsize : TypeHierarchy → Nat
  | .mk items => 1 + TypeHierarchy.tsizeList items

/-- Total size of a list of hierarchy entries. -/
def TypeHierarchy.tsizeList : List (String × TypeHierarchy) → Nat
  | [] => 0
  | kv :: rest => kv.2.tsize + TypeHierarchy.tsizeList rest

end

/-- The `for k, v in type_hierarchy.items()` loop body of `add_sub_hierarchy`:
emit the list item for `k` and recurse (through `rec`) when `v` is non-empty. -/
def hierStep (rec : RSTDocument → TypeHierarchy → Option RSTDocument)
    (depth : Nat) (indent_step : String)
    (acc : Option RSTDocument) (kv : String × TypeHierarchy) : Option RSTDocument :=
  match acc with
  | none => none
  | some outdoc =>
    let type_list_item := strMul depth indent_step ++ "* "
    let type_list_item := type_list_item ++ RSTDocument.get_reference
      (RSTSectionLabelHelper.get_section_label kv.1) (some kv.1)
    let type_list_item := type_list_item ++ outdoc.newline
    let outdoc := outdoc.add_text type_list_item
    if kv.2.items.length > 0 then
      let outdoc := outdoc.add_text outdoc.newline
      rec outdoc kv.2
    else some outdoc

/-- The `add_sub_hierarchy` helper nested in
`SpecToRST.render_type_hierarchy`, with an explicit fuel bound on the
recursion depth (`none` = fuel ran out; the function itself cannot raise). -/
def addSubHierarchyF : Nat → RSTDocument → TypeHierarchy → Nat → String → Option RSTDocument
  | 0, _, _, _, _ => none
  | fuel + 1, outdoc, th, depth, indent_step =>
    th.items.foldl
      (hierStep (fun outdoc v => addSubHierarchyF fuel outdoc v (depth + 1) indent_step)
        depth indent_step)
      (some outdoc)

/-- `SpecToRST.render_type_hierarchy`, taking the already-computed hierarchy
(the `spec_catalog.get_full_hierarchy()` call is external to this repository)
and returning the document and the hierarchy. -/
def SpecToRST.render_type_hierarchyF (fuel : Nat) (type_hierarchy : TypeHierarchy)
    (target_doc : Option RSTDocument) (section_label subsection_title : Option String) :
    Option (RSTDocument × TypeHierarchy) :=
  let target_doc := target_doc.getD RSTDocument.init
  let target_doc := if pyTruthyS section_label
    then target_doc.add_label (section_label.getD "") else target_doc
  let target_doc := if pyTruthyS subsection_title
    then target_doc.add_subsection (subsection_title.getD "") else target_doc
  match addSubHierarchyF fuel target_doc type_hierarchy 0 "   " with
  | none => none
  | some d =>
    let d := d.add_text (d.newline ++ d.newline)
    some (d, type_hierarchy)

/-- The `for sg in group_spec.groups` loop body of
`SpecToRST.render_group_spec`: thread the document through a recursive call,
propagating fuel exhaustion and raised exceptions. -/
def groupStep (rec : GroupTree → RSTDocument → Option (Except String RSTDocument))
    (acc : Option (Except String RSTDocument)) (sg : GroupTree) :
    Option (Except String RSTDocument) :=
  match acc with
  | none => none
  | some (.error e) => some (.error e)
  | some (.ok doc) => rec sg doc

/-- Exception/fuel threading for an `Option (Except ...)` intermediate
result: `none` (fuel ran out) and a raised exception propagate, a value feeds
`f`. -/
def oeBind {α β : Type} (x : Option (Except String α))
    (f : α → Option (Except String β)) : Option (Except String β) :=
  match x with
  | none => none
  | some (.error e) => some (.error e)
  | some (.ok v) => f v

/-- Exception threading for an `Except ...` intermediate result. -/
def eBind {α β : Type} (x : Except String α)
    (f : α → Option (Except String β)) : Option (Except String β) :=
  match x with
  | .error e => some (.error e)
  | .ok v => f v

/-- The group-name determination of `SpecToRST.render_group_spec` (source
lines 709-716): name, else `<data_type_def>`, else `<data_type_inc>`, else
`none` (meaning the documented `ValueError` is raised). -/
def SpecToRST.group_name_of (gd : SpecData) : Option String :=
  if gd.name ≠ none then gd.name
  else if gd.data_type_def ≠ none then some ("<" ++ gd.data_type_def.getD "" ++ ">")
  else if gd.data_type_inc ≠ none then some ("<" ++ gd.data_type_inc.getD "" ++ ">")
  else none

/-- The `raise ValueError` branch for a nameless group, else continue. -/
def nameOr (x : Option String) (f : String → Option (Except String RSTDocument)) :
    Option (Except String RSTDocument) :=
  match x with
  | none => some (.error "ValueError: Could not determine name for group")
  | some v => f v

/-- The `sectype` dispatch of `SpecToRST.render_group_spec` (source lines
721-732): add the group title as a heading of the selected kind (an unknown
`sectype` adds nothing). -/
def SpecToRST.add_sectype_heading (rst_doc : RSTDocument) (sectype title : String) :
    RSTDocument :=
  if sectype = "par" then rst_doc.add_paragraph title
  else if sectype = "sec" then rst_doc.add_section title
  else if sectype = "chp" then rst_doc.add_chapter title
  else if sectype = "subsec" then rst_doc.add_subsection title
  else if sectype = "subsubsec" then rst_doc.add_subsubsection title
  else if sectype = "prt" then rst_doc.add_part title
  else rst_doc

/-- `SpecToRST.render_group_spec`, with an explicit fuel bound on the
subgroup recursion depth. `none` means the fuel ran out; `some (.error e)`
models a raised Python exception (the documented `ValueError` for a group
whose name cannot be determined, or an exception propagating from the table
machinery). The two internal `render_spec_table` calls are given fuel
`Spec.size`, a sufficient recursion bound. -/
def SpecToRST.render_group_specF :
    Nat → GroupTree → String → Bool → Bool → Bool → String → Option RSTDocument →
    Option String → Option (Except String RSTDocument)
  | 0, _, _, _, _, _, _, _, _ => none
  | fuel + 1, group_spec, depth_char, show_table_titles, appreviate_main_object_doc,
      show_subgroups_in_seperate_table, sectype, rst_doc, parent =>
    let rst_doc := rst_doc.getD RSTDocument.init
    let parent := parent.getD ""
    let gd := group_spec.d
    nameOr (SpecToRST.group_name_of gd) (fun group_name =>
      let title := "Groups: " ++ parent ++ group_name
      let rst_doc := SpecToRST.add_sectype_heading rst_doc sectype title
      let gdoc := SpecToRST.clean_schema_doc_string gd.doc
        (some (rst_doc.newline ++ rst_doc.newline)) (some rst_doc.newline) "**" true
      eBind (SpecToRST.render_specification_properties (.group group_spec) rst_doc.newline
          (some ["primitive_type"]) none none) (fun props =>
        let gdoc := gdoc ++ rst_doc.newline
        let gdoc := gdoc ++ props
        let gdoc := gdoc ++ rst_doc.newline
        let rst_doc := rst_doc.add_text gdoc
        oeBind (SpecToRST.render_spec_tableF (Spec.group group_spec).size
            (.group group_spec) none depth_char 0 true true true
            (!show_subgroups_in_seperate_table) false appreviate_main_object_doc)
          (fun group_spec_data_table =>
          eBind (if group_spec_data_table.num_rows > 1 then
              let ttl : Option String := if show_table_titles then
                  (if !show_subgroups_in_seperate_table then
                    some ("Groups, Datasets, and Attributes contained in ``" ++
                      parent ++ group_name ++ "``")
                  else
                    some ("Datasets, Links, and Attributes contained in ``" ++
                      parent ++ group_name ++ "``"))
                else none
              rst_doc.add_table group_spec_data_table ttl (some "longtable") none true none
                (some SpecToRST.CUSTOM_LATEX_TABLE_COLUMNS)
            else .ok rst_doc) (fun rst_doc =>
            oeBind (if show_subgroups_in_seperate_table then
                oeBind (SpecToRST.render_spec_tableF (Spec.group group_spec).size
                    (.group group_spec) none depth_char 0 false false true true false
                    appreviate_main_object_doc) (fun group_spec_groups_table =>
                  if group_spec_groups_table.num_rows > 1 then
                    let ttl : Option String := if show_table_titles then
                        some ("Groups contained in <" ++ group_name ++ ">")
                      else none
                    eBind (rst_doc.add_table group_spec_groups_table ttl (some "longtable")
                        none true none (some SpecToRST.CUSTOM_LATEX_TABLE_COLUMNS))
                      (fun d => some (.ok d))
                  else some (.ok rst_doc))
              else some (.ok rst_doc)) (fun rst_doc =>
              group_spec.groups.foldl
                (groupStep (fun sg doc => SpecToRST.render_group_specF fuel sg depth_char
                  show_table_titles appreviate_main_object_doc
                  show_subgroups_in_seperate_table "par" (some doc)
                  (some (parent ++ group_name ++ "/"))))
                (some (.ok rst_doc)))))))

/-! Auxiliary lemmas about the string helpers. -/

theorem strMul_succ' (n : Nat) (s : String) : strMul (n + 1) s = strMul n s ++ s := by
  induction n with
  | zero =>
    show s ++ "" = "" ++ s
    rw [String.append_nil, String.nil_append]
  | succ n ih =>
    show s ++ strMul (n + 1) s = (s ++ strMul n s) ++ s
    rw [ih, String.append_assoc]

theorem strMul_length (n : Nat) (s : String) : (strMul n s).length = n * s.length := by
  induction n with
  | zero => simp [strMul]
  | succ n ih =>
    show (s ++ strMul n s).length = (n + 1) * s.length
    rw [String.length_append, ih]
    ring

theorem strMul_single (n : Nat) (c : Char) :
    strMul n (String.mk [c]) = String.mk (List.replicate n c) := by
  induction n with
  | zero => rfl
  | succ n ih =>
    apply String.ext
    show (String.mk [c] ++ strMul n (String.mk [c])).data = List.replicate (n + 1) c
    rw [String.data_append, ih, List.replicate_succ]
    rfl

theorem getHeadingline_eq (title hc : String) :
    RSTDocument.getHeadingline title hc = strMul title.length hc := by
  unfold RSTDocument.getHeadingline
  generalize title.length = n
  induction n with
  | zero => rfl
  | succ n ih =>
    rw [List.range_succ, List.foldl_append, ih, List.foldl_cons, List.foldl_nil, ← strMul_succ']

/-! Auxiliary lemmas about `RSTTable` mutators. -/

theorem add_row_cols (t : RSTTable) (rv : Option (List Cell)) (rn : Cell) (cts : Bool) :
    ((RSTTable.add_row t rv rn cts).1).cols = t.cols := by
  unfold RSTTable.add_row
  split <;> rfl

theorem add_row_ok (t : RSTTable) (rv : Option (List Cell)) (rn : Cell) (cts : Bool)
    (h : ¬(rn.truthy ∧ rv = none)) :
    ∃ rvs : List Cell,
      RSTTable.add_row t rv rn cts = ({ t with table := t.table ++ [rvs] }, none) ∧
      rvs.length = (rv.getD (List.replicate t.cols.length (Cell.str ""))).length := by
  unfold RSTTable.add_row
  rw [if_neg h]
  refine ⟨_, rfl, ?_⟩
  by_cases h1 : rn.truthy <;> by_cases h2 : cts <;> simp [h1, h2]

theorem add_row_err (t : RSTTable) (rv : Option (List Cell)) (rn : Cell) (cts : Bool)
    (h : rn.truthy ∧ rv = none) :
    RSTTable.add_row t rv rn cts = (t, some "TypeError") := by
  unfold RSTTable.add_row
  rw [if_pos h]

theorem add_row_fst_table (t : RSTTable) (rv : Option (List Cell)) (rn : Cell) (cts : Bool) :
    ((RSTTable.add_row t rv rn cts).1).table = t.table ∨
    ∃ rvs, ((RSTTable.add_row t rv rn cts).1).table = t.table ++ [rvs] ∧
      rvs.length = (rv.getD (List.replicate t.cols.length (Cell.str ""))).length := by
  by_cases h : rn.truthy ∧ rv = none
  · left
    rw [add_row_err t rv rn cts h]
  · right
    obtain ⟨rvs, heq, hlen⟩ := add_row_ok t rv rn cts h
    exact ⟨rvs, by rw [heq], hlen⟩

theorem set_cell_cols (t : RSTTable) (r c : Int) (tx : Cell) :
    ((RSTTable.set_cell t r c tx).1).cols = t.cols := by
  unfold RSTTable.set_cell
  split
  · rfl
  · split
    · rfl
    · split
      · rfl
      · dsimp only
        split
        · rfl
        · rfl

theorem set_col_cols_length (t : RSTTable) (c : Int) (tx : String) :
    ((RSTTable.set_col t c tx).1).cols.length = t.cols.length := by
  unfold RSTTable.set_col
  split
  · rfl
  · split
    · rfl
    · simp [List.length_set]

/-- Fold a sequence of `add_row` calls over a table; each call is a triple of
the `row_values`, `replace_none` and `convert_to_str` arguments. -/
def addRowSeq (t : RSTTable) (calls : List (Option (List Cell) × Cell × Bool)) : RSTTable :=
  calls.foldl (fun t c => (RSTTable.add_row t c.1 c.2.1 c.2.2).1) t

/-! Claim C8. -/

/-- C8: `SpecToRST.quantity_to_string` returns `str(q)` for every int `q`; for
a non-int it maps `'*'` and `'zero_or_more'` to `'0 or more'`, `'+'` and
`'one_or_more'` to `'1 or more'`, `'?'` and `'zero_or_one'` to `'0 or 1'`, and
raises `KeyError` for every other value. -/
theorem C8_quantity_to_string :
    (∀ n : Int, SpecToRST.quantity_to_string (.int n) = .ok (toString n)) ∧
    SpecToRST.quantity_to_string (.str "*") = .ok "0 or more" ∧
    SpecToRST.quantity_to_string (.str "zero_or_more") = .ok "0 or more" ∧
    SpecToRST.quantity_to_string (.str "+") = .ok "1 or more" ∧
    SpecToRST.quantity_to_string (.str "one_or_more") = .ok "1 or more" ∧
    SpecToRST.quantity_to_string (.str "?") = .ok "0 or 1" ∧
    SpecToRST.quantity_to_string (.str "zero_or_one") = .ok "0 or 1" ∧
    (∀ s : String, s ∉ ["*", "zero_or_more", "+", "one_or_more", "?", "zero_or_one"] →
      ∃ e, SpecToRST.quantity_to_string (.str s) = .error e) := by
  refine ⟨fun n => rfl, rfl, rfl, rfl, rfl, rfl, rfl, fun s hs => ?_⟩
  simp only [List.mem_cons, List.not_mem_nil, or_false, not_or] at hs
  obtain ⟨h1, h2, h3, h4, h5, h6⟩ := hs
  refine ⟨"KeyError: " ++ s, ?_⟩
  simp [SpecToRST.quantity_to_string, SpecToRST.qdict, List.lookup,
    beq_eq_false_iff_ne.mpr h1, beq_eq_false_iff_ne.mpr h2, beq_eq_false_iff_ne.mpr h3,
    beq_eq_false_iff_ne.mpr h4, beq_eq_false_iff_ne.mpr h5, beq_eq_false_iff_ne.mpr h6]

/-- Witness for C8 at the concrete non-key string `"bogus"`. -/
theorem C8_quantity_to_string_witness :
    ∃ e, SpecToRST.quantity_to_string (.str "bogus") = .error e :=
  C8_quantity_to_string.2.2.2.2.2.2.2 "bogus" (by decide)

/-! Claim C7. -/

/-- C7: columns are fixed at construction: `num_cols` returns the length of
the label list (respectively a non-negative int count), and `add_row`,
`set_cell` and `set_col` never change the column count (`set_col` may change a
label; `render` takes the table immutably in this embedding and returns only a
document, so it cannot change the column count by construction). -/
theorem C7_columns_fixed :
    (∀ labels : List String, (RSTTable.init (.inl labels)).num_cols = labels.length) ∧
    (∀ n : Int, 0 ≤ n → ((RSTTable.init (.inr n)).num_cols : Int) = n) ∧
    (∀ t rv rn cts, ((RSTTable.add_row t rv rn cts).1).num_cols = t.num_cols) ∧
    (∀ t r c tx, ((RSTTable.set_cell t r c tx).1).num_cols = t.num_cols) ∧
    (∀ t c tx, ((RSTTable.set_col t c tx).1).num_cols = t.num_cols) := by
  refine ⟨fun labels => rfl, fun n hn => ?_, fun t rv rn cts => ?_, fun t r c tx => ?_,
    fun t c tx => ?_⟩
  · show ((List.replicate n.toNat "").length : Int) = n
    rw [List.length_replicate]
    omega
  · show ((RSTTable.add_row t rv rn cts).1).cols.length = t.cols.length
    rw [add_row_cols]
  · show ((RSTTable.set_cell t r c tx).1).cols.length = t.cols.length
    rw [set_cell_cols]
  · exact set_col_cols_length t c tx

/-- Witness for C7 at the concrete count 3. -/
theorem C7_columns_fixed_witness : ((RSTTable.init (.inr 3)).num_cols : Int) = 3 :=
  C7_columns_fixed.2.1 3 (by decide)

/-! Claim C2. -/

/-- C2 counterexample: a table with two columns stores the single-cell row
passed to `add_row` unchanged, so a stored row need not have `num_cols` cells. -/
theorem C2_counterexample :
    ((((RSTTable.init (.inl ["A", "B"])).add_row
        (some [Cell.str "x"]) Cell.pynone true).1).num_cols = 2) ∧
    ((((RSTTable.init (.inl ["A", "B"])).add_row
        (some [Cell.str "x"]) Cell.pynone true).1).table = [[Cell.str "x"]]) ∧
    ¬ (∀ row ∈ (((RSTTable.init (.inl ["A", "B"])).add_row
        (some [Cell.str "x"]) Cell.pynone true).1).table,
        row.length = (((RSTTable.init (.inl ["A", "B"])).add_row
          (some [Cell.str "x"]) Cell.pynone true).1).num_cols) := by
  refine ⟨rfl, rfl, fun h => ?_⟩
  have := h [Cell.str "x"] (by decide)
  revert this
  decide

/-- C2 as amended: each `add_row` appends exactly one row whose cell count is
the length of the `row_values` it was given (`num_cols()` when `row_values` is
`None`, and unchanged rows on the `TypeError` path); hence after any sequence
of `add_row` calls in which every non-`None` `row_values` has length
`num_cols()`, every stored row has exactly `num_cols()` cells. -/
theorem C2_amended (t : RSTTable) (calls : List (Option (List Cell) × Cell × Bool))
    (h0 : ∀ row ∈ t.table, row.length = t.num_cols)
    (hc : ∀ c ∈ calls, ∀ rv, c.1 = some rv → rv.length = t.num_cols) :
    (addRowSeq t calls).num_cols = t.num_cols ∧
    ∀ row ∈ (addRowSeq t calls).table, row.length = t.num_cols := by
  induction calls generalizing t with
  | nil => exact ⟨rfl, h0⟩
  | cons c cs ih =>
    have hcols : ((RSTTable.add_row t c.1 c.2.1 c.2.2).1).cols = t.cols :=
      add_row_cols t c.1 c.2.1 c.2.2
    have hnum : ((RSTTable.add_row t c.1 c.2.1 c.2.2).1).num_cols = t.num_cols := by
      show ((RSTTable.add_row t c.1 c.2.1 c.2.2).1).cols.length = t.cols.length
      rw [hcols]
    have h0' : ∀ row ∈ ((RSTTable.add_row t c.1 c.2.1 c.2.2).1).table,
        row.length = t.num_cols := by
      rcases add_row_fst_table t c.1 c.2.1 c.2.2 with he | ⟨rvs, he, hlen⟩
      · intro row hr
        rw [he] at hr
        exact h0 row hr
      · intro row hr
        rw [he] at hr
        rcases List.mem_append.mp hr with hmem | hmem
        · exact h0 row hmem
        · have hrow : row = rvs := by simpa using hmem
          subst hrow
          rw [hlen]
          cases hrv : c.1 with
          | some rv =>
            simp only [hrv, Option.getD_some]
            exact hc c (List.mem_cons_self c cs) rv hrv
          | none =>
            simp [hrv, RSTTable.num_cols]
    have step : addRowSeq t (c :: cs) = addRowSeq ((RSTTable.add_row t c.1 c.2.1 c.2.2).1) cs :=
      rfl
    have hc' : ∀ c' ∈ cs, ∀ rv, c'.1 = some rv →
        rv.length = ((RSTTable.add_row t c.1 c.2.1 c.2.2).1).num_cols := by
      intro c' hcs rv hrv
      rw [hnum]
      exact hc c' (List.mem_cons_of_mem c hcs) rv hrv
    have h0'' : ∀ row ∈ ((RSTTable.add_row t c.1 c.2.1 c.2.2).1).table,
        row.length = ((RSTTable.add_row t c.1 c.2.1 c.2.2).1).num_cols := by
      intro row hr
      rw [hnum]
      exact h0' row hr
    obtain ⟨ha, hb⟩ := ih ((RSTTable.add_row t c.1 c.2.1 c.2.2).1) h0'' hc'
    rw [step]
    refine ⟨by rw [ha, hnum], fun row hr => ?_⟩
    rw [← hnum]
    exact hb row hr

/-- Witness for C2's amended theorem: two well-sized `add_row` calls on a
two-column table leave every stored row with two cells. -/
theorem C2_amended_witness :
    (addRowSeq (RSTTable.init (.inl ["A", "B"]))
      [(some [Cell.str "x", Cell.pynone], Cell.pynone, true), (none, Cell.str "", true)]).num_cols =
      (RSTTable.init (.inl ["A", "B"])).num_cols ∧
    ∀ row ∈ (addRowSeq (RSTTable.init (.inl ["A", "B"]))
      [(some [Cell.str "x", Cell.pynone], Cell.pynone, true), (none, Cell.str "", true)]).table,
      row.length = (RSTTable.init (.inl ["A", "B"])).num_cols :=
  C2_amended (RSTTable.init (.inl ["A", "B"]))
    [(some [Cell.str "x", Cell.pynone], Cell.pynone, true), (none, Cell.str "", true)]
    (by intro row hr; simp [RSTTable.init] at hr) (by decide)

/-! Claim C9. -/

/-- C9 counterexample: on a table with `num_cols() = 2` whose single stored
row has only one cell, the in-bounds call `set_cell(0, 1, ...)` raises
`IndexError` from `self.__table[row][col]` (not `ValueError`) and sets
nothing, so the in-bounds case of the claim fails as stated. -/
theorem C9_counterexample :
    ((((RSTTable.init (.inl ["A", "B"])).add_row (some [Cell.str "x"])
        (Cell.str "") true).1).num_rows = 1) ∧
    ((((RSTTable.init (.inl ["A", "B"])).add_row (some [Cell.str "x"])
        (Cell.str "") true).1).num_cols = 2) ∧
    RSTTable.set_cell (((RSTTable.init (.inl ["A", "B"])).add_row (some [Cell.str "x"])
        (Cell.str "") true).1) 0 1 (Cell.str "y") =
      ((((RSTTable.init (.inl ["A", "B"])).add_row (some [Cell.str "x"])
        (Cell.str "") true).1), some "IndexError") := by
  refine ⟨rfl, rfl, ?_⟩
  decide

/-- C9 as amended: `set_cell` raises `ValueError` and leaves the table
unchanged whenever `col >= num_cols()` or `row >= num_rows()`; when
`0 <= row < num_rows()`, `0 <= col < num_cols()` and additionally the stored
row has more than `col` cells (always true when every stored row has
`num_cols()` cells), it sets exactly the cell at `(row, col)` to `text` and
leaves every other cell, the column-label list, and the row count unchanged. -/
theorem C9_set_cell (t : RSTTable) (row col : Int) (tx : Cell) :
    (((t.cols.length : Int) ≤ col ∨ (t.table.length : Int) ≤ row) →
      RSTTable.set_cell t row col tx = (t, some "ValueError")) ∧
    (0 ≤ row → row < (t.table.length : Int) → 0 ≤ col → col < (t.cols.length : Int) →
      col < ((t.table.getD row.toNat []).length : Int) →
      (RSTTable.set_cell t row col tx).2 = none ∧
      ((RSTTable.set_cell t row col tx).1).cols = t.cols ∧
      ((RSTTable.set_cell t row col tx).1).num_rows = t.num_rows ∧
      ((((RSTTable.set_cell t row col tx).1).table.getD row.toNat []).getD col.toNat
        Cell.pynone = tx) ∧
      (∀ r c : Nat, ¬(r = row.toNat ∧ c = col.toNat) →
        (((RSTTable.set_cell t row col tx).1).table.getD r []).getD c Cell.pynone =
          (t.table.getD r []).getD c Cell.pynone)) := by
  constructor
  · intro h
    unfold RSTTable.set_cell
    rcases h with h | h
    · rw [if_pos h]
    · by_cases hc : (t.cols.length : Int) ≤ col
      · rw [if_pos hc]
      · rw [if_neg hc, if_pos h]
  · intro h0r h1r h0c h1c hcr
    have hri : pyIdx t.table.length row = some row.toNat := by
      simp only [pyIdx]
      rw [if_neg (show ¬ row < 0 by omega)]
      rw [if_pos (show 0 ≤ row ∧ row < (t.table.length : Int) from ⟨h0r, h1r⟩)]
    have hci : pyIdx (t.table.getD row.toNat []).length col = some col.toNat := by
      simp only [pyIdx]
      rw [if_neg (show ¬ col < 0 by omega)]
      rw [if_pos (show 0 ≤ col ∧ col < ((t.table.getD row.toNat []).length : Int) from ⟨h0c, hcr⟩)]
    have heq : RSTTable.set_cell t row col tx =
        ({ t with table := t.table.set row.toNat ((t.table.getD row.toNat []).set col.toNat tx) }, none) := by
      unfold RSTTable.set_cell
      rw [if_neg (show ¬ (t.cols.length : Int) ≤ col by omega),
        if_neg (show ¬ (t.table.length : Int) ≤ row by omega), hri]
      dsimp only
      rw [hci]
    have hrowlt : row.toNat < t.table.length := by omega
    have hcollt : col.toNat < (t.table.getD row.toNat []).length := by omega
    refine ⟨by rw [heq], by rw [heq], ?_, ?_, ?_⟩
    · show ((RSTTable.set_cell t row col tx).1).table.length = t.table.length
      rw [heq]
      exact List.length_set t.table row.toNat _
    · rw [heq]
      dsimp only
      have h1 : (t.table.set row.toNat ((t.table.getD row.toNat []).set col.toNat tx)).getD
          row.toNat [] = (t.table.getD row.toNat []).set col.toNat tx := by
        rw [List.getD_eq_getElem?_getD, List.getElem?_set_eq hrowlt, Option.getD_some]
      rw [h1, List.getD_eq_getElem?_getD, List.getElem?_set_eq hcollt, Option.getD_some]
    · intro r c hne
      rw [heq]
      dsimp only
      by_cases hr : r = row.toNat
      · subst hr
        have hc : c ≠ col.toNat := fun hcc => hne ⟨rfl, hcc⟩
        have h1 : (t.table.set row.toNat ((t.table.getD row.toNat []).set col.toNat tx)).getD
            row.toNat [] = (t.table.getD row.toNat []).set col.toNat tx := by
          rw [List.getD_eq_getElem?_getD, List.getElem?_set_eq hrowlt, Option.getD_some]
        rw [h1, List.getD_eq_getElem?_getD, List.getElem?_set_ne (Ne.symm hc),
          ← List.getD_eq_getElem?_getD]
      · have h1 : (t.table.set row.toNat ((t.table.getD row.toNat []).set col.toNat tx)).getD
            r [] = t.table.getD r [] := by
          rw [List.getD_eq_getElem?_getD, List.getElem?_set_ne (Ne.symm hr),
            ← List.getD_eq_getElem?_getD]
        rw [h1]

/-- Witness for C9's amended theorem: an in-bounds `set_cell` on a well-formed
one-cell table succeeds. -/
theorem C9_set_cell_witness :
    (RSTTable.set_cell (((RSTTable.init (.inl ["A"])).add_row (some [Cell.str "x"])
      (Cell.str "") true).1) 0 0 (Cell.str "z")).2 = none :=
  ((C9_set_cell (((RSTTable.init (.inl ["A"])).add_row (some [Cell.str "x"])
    (Cell.str "") true).1) 0 0 (Cell.str "z")).2
    (by decide) (by decide) (by decide) (by decide) (by decide)).1

/-! Claim C10. -/

theorem getHeadingline_hash (title : String) :
    RSTDocument.getHeadingline title "#" = String.mk (List.replicate title.length '#') := by
  rw [getHeadingline_eq]
  exact strMul_single title.length '#'

theorem getHeadingline_star (title : String) :
    RSTDocument.getHeadingline title "*" = String.mk (List.replicate title.length '*') := by
  rw [getHeadingline_eq]
  exact strMul_single title.length '*'

theorem getHeadingline_equals (title : String) :
    RSTDocument.getHeadingline title "=" = String.mk (List.replicate title.length '=') := by
  rw [getHeadingline_eq]
  exact strMul_single title.length '='

theorem getHeadingline_dash (title : String) :
    RSTDocument.getHeadingline title "-" = String.mk (List.replicate title.length '-') := by
  rw [getHeadingline_eq]
  exact strMul_single title.length '-'

theorem getHeadingline_caret (title : String) :
    RSTDocument.getHeadingline title "^" = String.mk (List.replicate title.length '^') := by
  rw [getHeadingline_eq]
  exact strMul_single title.length '^'

theorem getHeadingline_quote (title : String) :
    RSTDocument.getHeadingline title "\"" = String.mk (List.replicate title.length '\"') := by
  rw [getHeadingline_eq]
  exact strMul_single title.length '\"'

/-- C10: with the document's newline convention `"\n"`, each heading helper of
`RSTDocument` appends an underline (and, for `add_part` and `add_chapter`,
also an overline) consisting of exactly `len(title)` copies of that level's
heading character (`'#'`, `'*'`, `'='`, `'-'`, `'^'`, `'"'` respectively),
each on its own line, followed by a blank line. -/
theorem C10_headings (d : RSTDocument) (title : String) (hnl : d.newline = "\n") :
    ((d.add_part title).document = d.document ++
      (String.mk (List.replicate title.length '#') ++ "\n" ++ (title ++ "\n") ++
        (String.mk (List.replicate title.length '#') ++ "\n") ++ "\n")) ∧
    ((d.add_chapter title).document = d.document ++
      (String.mk (List.replicate title.length '*') ++ "\n" ++ (title ++ "\n") ++
        (String.mk (List.replicate title.length '*') ++ "\n") ++ "\n")) ∧
    ((d.add_section title).document = d.document ++
      (title ++ "\n" ++ (String.mk (List.replicate title.length '=') ++ "\n") ++ "\n")) ∧
    ((d.add_subsection title).document = d.document ++
      (title ++ "\n" ++ (String.mk (List.replicate title.length '-') ++ "\n") ++ "\n")) ∧
    ((d.add_subsubsection title).document = d.document ++
      (title ++ "\n" ++ (String.mk (List.replicate title.length '^') ++ "\n") ++ "\n")) ∧
    ((d.add_paragraph title).document = d.document ++
      (title ++ "\n" ++ (String.mk (List.replicate title.length '\"') ++ "\n") ++ "\n")) := by
  refine ⟨?_, ?_, ?_, ?_, ?_, ?_⟩ <;>
    simp only [RSTDocument.add_part, RSTDocument.add_chapter, RSTDocument.add_section,
      RSTDocument.add_subsection, RSTDocument.add_subsubsection, RSTDocument.add_paragraph,
      RSTDocument.add_text, getHeadingline_hash, getHeadingline_star, getHeadingline_equals,
      getHeadingline_dash, getHeadingline_caret, getHeadingline_quote, hnl] <;>
    simp [String.append_assoc]

/-- Witness for C10 at the two-character title `"Ab"` on a fresh document. -/
theorem C10_headings_witness :
    (RSTDocument.init.add_section "Ab").document = RSTDocument.init.document ++
      ("Ab" ++ "\n" ++ (String.mk (List.replicate ("Ab" : String).length '=') ++ "\n") ++ "\n") :=
  (C10_headings RSTDocument.init "Ab" rfl).2.2.1

/-! Claim C1. -/

/-- C1 (code bug): `render` called with `rst_doc=None` on a non-empty table
raises `AttributeError`, because line 1359 of the source reads
`rst_doc.newline` before the `rst_doc = rst_doc if rst_doc is not None else
RSTDocument()` default on line 1362, contradicting the documented interface
("rst_doc: RSTDocument where the table should be rendered in or None if a new
document should be created"). -/
theorem C1_render_none_raises :
    RSTTable.render (((RSTTable.init (.inl ["A"])).add_row (some [Cell.str "x"])
        (Cell.str "") true).1) none none none none true none none =
      .error "AttributeError: NoneType object has no attribute newline" := by
  rfl

/-! Claim C6: size lemmas for the spec trees. -/

theorem gsize_pos (g : GroupTree) : 1 ≤ g.gsize := by
  cases g with
  | mk d attrs dsets links groups =>
    simp only [GroupTree.gsize]
    omega

theorem gsizeList_le (g : GroupTree) (gs : List GroupTree) (hm : g ∈ gs) :
    g.gsize ≤ GroupTree.gsizeList gs := by
  induction gs with
  | nil => cases hm
  | cons x xs ih =>
    simp only [GroupTree.gsizeList]
    rcases List.mem_cons.mp hm with h | h
    · subst h
      omega
    · have := ih h
      omega

theorem tsize_pos (th : TypeHierarchy) : 1 ≤ th.tsize := by
  cases th with
  | mk items =>
    simp only [TypeHierarchy.tsize]
    omega

theorem tsizeList_le (kv : String × TypeHierarchy) (items : List (String × TypeHierarchy))
    (hm : kv ∈ items) : kv.2.tsize ≤ TypeHierarchy.tsizeList items := by
  induction items with
  | nil => cases hm
  | cons x xs ih =>
    simp only [TypeHierarchy.tsizeList]
    rcases List.mem_cons.mp hm with h | h
    · subst h
      omega
    · have := ih h
      omega

theorem tsize_child_lt (kv : String × TypeHierarchy) (th : TypeHierarchy)
    (hm : kv ∈ th.items) : kv.2.tsize < th.tsize := by
  cases th with
  | mk items =>
    simp only [TypeHierarchy.items] at hm
    simp only [TypeHierarchy.tsize]
    have := tsizeList_le kv items hm
    omega

theorem spec_size_pos (s : Spec) : 1 ≤ s.size := by
  cases s with
  | group g => exact gsize_pos g
  | dataset ds =>
    simp only [Spec.size]
    omega
  | attr a => exact le_refl 1
  | link l => exact le_refl 1

theorem size_attr_lt_group (a : SpecData) (d : SpecData) (attrs : List SpecData)
    (dsets : List DatasetTree) (links : List SpecData) (groups : List GroupTree)
    (h : a ∈ attrs) :
    (Spec.attr a).size < (Spec.group (.mk d attrs dsets links groups)).size := by
  simp only [Spec.size, GroupTree.gsize]
  have := List.length_pos_of_mem h
  omega

theorem size_attr_lt_dataset (a : SpecData) (d : SpecData) (attrs : List SpecData)
    (h : a ∈ attrs) :
    (Spec.attr a).size < (Spec.dataset ⟨d, attrs⟩).size := by
  simp only [Spec.size]
  have := List.length_pos_of_mem h
  omega

theorem size_dset_lt_group (t : DatasetTree) (d : SpecData) (attrs : List SpecData)
    (dsets : List DatasetTree) (links : List SpecData) (groups : List GroupTree)
    (h : t ∈ dsets) :
    (Spec.dataset t).size < (Spec.group (.mk d attrs dsets links groups)).size := by
  simp only [Spec.size, GroupTree.gsize]
  have hle : 1 + t.attributes.length ≤ (dsets.map (fun t => 1 + t.attributes.length)).sum :=
    List.single_le_sum (fun x _ => Nat.zero_le x) _ (List.mem_map_of_mem _ h)
  omega

theorem size_link_lt_group (l : SpecData) (d : SpecData) (attrs : List SpecData)
    (dsets : List DatasetTree) (links : List SpecData) (groups : List GroupTree)
    (h : l ∈ links) :
    (Spec.link l).size < (Spec.group (.mk d attrs dsets links groups)).size := by
  simp only [Spec.size, GroupTree.gsize]
  have := List.length_pos_of_mem h
  omega

theorem size_group_lt_group (sg : GroupTree) (d : SpecData) (attrs : List SpecData)
    (dsets : List DatasetTree) (links : List SpecData) (groups : List GroupTree)
    (h : sg ∈ groups) :
    (Spec.group sg).size < (Spec.group (.mk d attrs dsets links groups)).size := by
  simp only [Spec.size, GroupTree.gsize]
  have := gsizeList_le sg groups h
  omega

theorem gsize_child_lt (sg : GroupTree) (g : GroupTree) (h : sg ∈ g.groups) :
    sg.gsize < g.gsize := by
  cases g with
  | mk d attrs dsets links groups =>
    simp only [GroupTree.groups] at h
    simp only [GroupTree.gsize]
    have := gsizeList_le sg groups h
    omega

/-! Claim C6: fold-preservation lemmas. -/

theorem foldl_specTableStep_isSome (l : List Spec)
    (rec : Spec → RSTTable → Option (Except String RSTTable))
    (h : ∀ c ∈ l, ∀ t, (rec c t).isSome = true) :
    ∀ acc, acc.isSome = true → (l.foldl (specTableStep rec) acc).isSome = true := by
  induction l with
  | nil => exact fun acc hacc => hacc
  | cons c cs ih =>
    intro acc hacc
    rw [List.foldl_cons]
    apply ih (fun c' hc' t => h c' (List.mem_cons_of_mem c hc') t)
    rcases acc with _ | e
    · simp at hacc
    · rcases e with e | t
      · rfl
      · exact h c (List.mem_cons_self c cs) t

theorem ifFold_isSome (P : Bool) (l : List Spec)
    (rec : Spec → RSTTable → Option (Except String RSTTable))
    (h : ∀ c ∈ l, ∀ t, (rec c t).isSome = true)
    (acc : Option (Except String RSTTable)) (hacc : acc.isSome = true) :
    (if P = true then l.foldl (specTableStep rec) acc else acc).isSome = true := by
  split
  · exact foldl_specTableStep_isSome l rec h acc hacc
  · exact hacc

theorem ifFold2_isSome (P Q : Bool) (l : List Spec)
    (recA recB : Spec → RSTTable → Option (Except String RSTTable))
    (hA : ∀ c ∈ l, ∀ t, (recA c t).isSome = true)
    (hB : ∀ c ∈ l, ∀ t, (recB c t).isSome = true)
    (acc : Option (Except String RSTTable)) (hacc : acc.isSome = true) :
    (if P = true then
      (if Q = true then l.foldl (specTableStep recA) acc else l.foldl (specTableStep recB) acc)
     else acc).isSome = true := by
  split
  · split
    · exact foldl_specTableStep_isSome l recA hA acc hacc
    · exact foldl_specTableStep_isSome l recB hB acc hacc
  · exact hacc

theorem foldl_groupStep_isSome (l : List GroupTree)
    (rec : GroupTree → RSTDocument → Option (Except String RSTDocument))
    (h : ∀ g ∈ l, ∀ d, (rec g d).isSome = true) :
    ∀ acc, acc.isSome = true → (l.foldl (groupStep rec) acc).isSome = true := by
  induction l with
  | nil => exact fun acc hacc => hacc
  | cons g gs ih =>
    intro acc hacc
    rw [List.foldl_cons]
    apply ih (fun g' hg' d => h g' (List.mem_cons_of_mem g hg') d)
    rcases acc with _ | e
    · simp at hacc
    · rcases e with e | d
      · rfl
      · exact h g (List.mem_cons_self g gs) d

theorem foldl_hierStep_isSome (l : List (String × TypeHierarchy))
    (rec : RSTDocument → TypeHierarchy → Option RSTDocument) (depth : Nat) (ind : String)
    (h : ∀ kv ∈ l, ∀ d, (rec d kv.2).isSome = true) :
    ∀ acc, acc.isSome = true → (l.foldl (hierStep rec depth ind) acc).isSome = true := by
  induction l with
  | nil => exact fun acc hacc => hacc
  | cons kv kvs ih =>
    intro acc hacc
    rw [List.foldl_cons]
    apply ih (fun kv' hk' d => h kv' (List.mem_cons_of_mem kv hk') d)
    rcases acc with _ | outdoc
    · simp at hacc
    · dsimp only [hierStep]
      split
      · exact h kv (List.mem_cons_self kv kvs) _
      · rfl

/-! Claim C6: totality of the recursive renderers. -/

theorem render_spec_tableF_total :
    ∀ (fuel : Nat) (spec : Spec), spec.size ≤ fuel →
      ∀ tbl dc depth b1 b2 b3 b4 b5 b6,
        (SpecToRST.render_spec_tableF fuel spec tbl dc depth b1 b2 b3 b4 b5 b6).isSome = true := by
  intro fuel
  induction fuel with
  | zero =>
    intro spec h
    exact absurd h (by have := spec_size_pos spec; omega)
  | succ fuel ih =>
    intro spec hsize tbl dc depth b1 b2 b3 b4 b5 b6
    have hattrs : ∀ c ∈ spec.childAttributes.map Spec.attr, ∀ t : RSTTable,
        (SpecToRST.render_spec_tableF fuel c (some t) dc (depth + 1)
          true true true false false true).isSome = true := by
      intro c hc t
      rcases List.mem_map.mp hc with ⟨a, ha, rfl⟩
      apply ih
      cases spec with
      | group g =>
        cases g with
        | mk d attrs dsets links groups =>
          simp only [Spec.childAttributes, GroupTree.attributes] at ha
          have h2 := size_attr_lt_group a d attrs dsets links groups ha
          omega
      | dataset ds =>
        cases ds with
        | mk d attrs =>
          simp only [Spec.childAttributes] at ha
          have h2 := size_attr_lt_dataset a d attrs ha
          omega
      | attr a2 => simp [Spec.childAttributes] at ha
      | link l2 => simp [Spec.childAttributes] at ha
    have hdsets : ∀ c ∈ spec.childDatasets.map Spec.dataset, ∀ t : RSTTable,
        (SpecToRST.render_spec_tableF fuel c (some t) dc (depth + 1)
          true true true false false true).isSome = true := by
      intro c hc t
      rcases List.mem_map.mp hc with ⟨x, hx, rfl⟩
      apply ih
      cases spec with
      | group g =>
        cases g with
        | mk d attrs dsets links groups =>
          simp only [Spec.childDatasets, GroupTree.datasets] at hx
          have h2 := size_dset_lt_group x d attrs dsets links groups hx
          omega
      | dataset ds => simp [Spec.childDatasets] at hx
      | attr a2 => simp [Spec.childDatasets] at hx
      | link l2 => simp [Spec.childDatasets] at hx
    have hlinks : ∀ c ∈ spec.childLinks.map Spec.link, ∀ t : RSTTable,
        (SpecToRST.render_spec_tableF fuel c (some t) dc (depth + 1)
          true true true false false true).isSome = true := by
      intro c hc t
      rcases List.mem_map.mp hc with ⟨x, hx, rfl⟩
      apply ih
      cases spec with
      | group g =>
        cases g with
        | mk d attrs dsets links groups =>
          simp only [Spec.childLinks, GroupTree.links] at hx
          have h2 := size_link_lt_group x d attrs dsets links groups hx
          omega
      | dataset ds => simp [Spec.childLinks] at hx
      | attr a2 => simp [Spec.childLinks] at hx
      | link l2 => simp [Spec.childLinks] at hx
    have hgroupsA : ∀ c ∈ spec.childGroups.map Spec.group, ∀ t : RSTTable,
        (SpecToRST.render_spec_tableF fuel c (some t) dc (depth + 1)
          b1 b2 true b4 false true).isSome = true := by
      intro c hc t
      rcases List.mem_map.mp hc with ⟨x, hx, rfl⟩
      apply ih
      cases spec with
      | group g =>
        cases g with
        | mk d attrs dsets links groups =>
          simp only [Spec.childGroups, GroupTree.groups] at hx
          have h2 := size_group_lt_group x d attrs dsets links groups hx
          omega
      | dataset ds => simp [Spec.childGroups] at hx
      | attr a2 => simp [Spec.childGroups] at hx
      | link l2 => simp [Spec.childGroups] at hx
    have hgroupsB : ∀ c ∈ spec.childGroups.map Spec.group, ∀ t : RSTTable,
        (SpecToRST.render_spec_tableF fuel c (some t) dc (depth + 1)
          false false true false b5 true).isSome = true := by
      intro c hc t
      rcases List.mem_map.mp hc with ⟨x, hx, rfl⟩
      apply ih
      cases spec with
      | group g =>
        cases g with
        | mk d attrs dsets links groups =>
          simp only [Spec.childGroups, GroupTree.groups] at hx
          have h2 := size_group_lt_group x d attrs dsets links groups hx
          omega
      | dataset ds => simp [Spec.childGroups] at hx
      | attr a2 => simp [Spec.childGroups] at hx
      | link l2 => simp [Spec.childGroups] at hx
    rw [SpecToRST.render_spec_tableF]
    dsimp only
    split
    · rfl
    · exact ifFold2_isSome _ _ _ _ _ hgroupsA hgroupsB _
        (ifFold_isSome _ _ _ hlinks _
          (ifFold_isSome _ _ _ hdsets _
            (ifFold_isSome _ _ _ hattrs _ rfl)))

/-! Claim C6: small case-analysis lemmas for the exception-threading matches. -/

theorem matchO_isSome {α β : Type} (X : Option α) (g : Option (Except String β))
    (f : α → Option (Except String β)) (hg : g.isSome = true)
    (hf : ∀ v, (f v).isSome = true) :
    (match X with | none => g | some v => f v).isSome = true := by
  rcases X with _ | v
  · exact hg
  · exact hf v

theorem matchE_isSome {α β : Type} (X : Except String α) (f : α → Option (Except String β))
    (hf : ∀ v, (f v).isSome = true) :
    (match X with
     | Except.error e => some (Except.error e)
     | Except.ok v => f v).isSome = true := by
  rcases X with e | v
  · rfl
  · exact hf v

theorem matchOE_isSome {α β : Type} (X : Option (Except String α))
    (f : α → Option (Except String β)) (hX : X.isSome = true)
    (hf : ∀ v, (f v).isSome = true) :
    (match X with
     | none => none
     | some (Except.error e) => some (Except.error e)
     | some (Except.ok v) => f v).isSome = true := by
  rcases X with _ | e
  · simp at hX
  · rcases e with e | v
    · rfl
    · exact hf v

theorem matchEE_isSome {α : Type} (X : Except String α) :
    (match X with
     | Except.error e => some (Except.error e)
     | Except.ok d => some (Except.ok d)).isSome = true := by
  rcases X with e | d
  · rfl
  · rfl

theorem nameOr_isSome (x : Option String) (f : String → Option (Except String RSTDocument))
    (hf : ∀ v, (f v).isSome = true) : (nameOr x f).isSome = true := by
  rcases x with _ | v
  · rfl
  · exact hf v

theorem eBind_isSome {α β : Type} (x : Except String α) (f : α → Option (Except String β))
    (hf : ∀ v, (f v).isSome = true) : (eBind x f).isSome = true := by
  rcases x with e | v
  · rfl
  · exact hf v

theorem oeBind_isSome {α β : Type} (x : Option (Except String α))
    (f : α → Option (Except String β)) (hx : x.isSome = true)
    (hf : ∀ v, (f v).isSome = true) : (oeBind x f).isSome = true := by
  rcases x with _ | e
  · simp at hx
  · rcases e with e | v
    · rfl
    · exact hf v

theorem render_group_specF_total :
    ∀ (fuel : Nat) (g : GroupTree), g.gsize ≤ fuel →
      ∀ dc b1 b2 b3 st rd pr,
        (SpecToRST.render_group_specF fuel g dc b1 b2 b3 st rd pr).isSome = true := by
  intro fuel
  induction fuel with
  | zero =>
    intro g h
    exact absurd h (by have := gsize_pos g; omega)
  | succ fuel ih =>
    intro g hsize dc b1 b2 b3 st rd pr
    rw [SpecToRST.render_group_specF]
    dsimp only
    refine nameOr_isSome _ _ (fun gn => ?_)
    refine eBind_isSome _ _ (fun props => ?_)
    refine oeBind_isSome _ _
      (render_spec_tableF_total _ _ (le_refl _) _ _ _ _ _ _ _ _ _) (fun tbl1 => ?_)
    refine eBind_isSome _ _ (fun doc1 => ?_)
    refine oeBind_isSome _ _ ?_ (fun doc2 => ?_)
    · by_cases hb : b3 = true
      · rw [if_pos hb]
        refine oeBind_isSome _ _
          (render_spec_tableF_total _ _ (le_refl _) _ _ _ _ _ _ _ _ _) (fun gt => ?_)
        by_cases hgt : gt.num_rows > 1
        · rw [if_pos hgt]
          exact eBind_isSome _ _ (fun d => rfl)
        · rw [if_neg hgt]
          rfl
      · rw [if_neg hb]
        rfl
    · exact foldl_groupStep_isSome g.groups _
        (fun sg hsg d => ih sg (by have := gsize_child_lt sg g hsg; omega) _ _ _ _ _ _ _)
        _ rfl

theorem addSubHierarchyF_total :
    ∀ (fuel : Nat) (th : TypeHierarchy), th.tsize ≤ fuel →
      ∀ d depth ind, (addSubHierarchyF fuel d th depth ind).isSome = true := by
  intro fuel
  induction fuel with
  | zero =>
    intro th h
    exact absurd h (by have := tsize_pos th; omega)
  | succ fuel ih =>
    intro th hsize d depth ind
    rw [addSubHierarchyF]
    exact foldl_hierStep_isSome th.items _ _ _
      (fun kv hk d2 => ih kv.2 (by have := tsize_child_lt kv th hk; omega) _ _ _)
      _ rfl

/-- C6: tree traversal terminates. For every finite acyclic specification tree
the recursive renderers complete: with fuel bounding the recursion by the node
count of the tree (`Spec.size`, `GroupTree.gsize`, `TypeHierarchy.tsize`),
`render_spec_table`, `render_group_spec` and the `add_sub_hierarchy` walker of
`render_type_hierarchy` never exhaust the fuel (`isSome`), i.e. they make
finitely many recursive calls — recursing only on sub-attributes,
sub-datasets, sub-links and sub-groups of the current node — and return
(possibly returning a raised Python exception, such as the documented
`ValueError` for a group without a determinable name). -/
theorem C6_tree_traversal_terminates :
    (∀ (fuel : Nat) (spec : Spec), spec.size ≤ fuel →
      ∀ tbl dc depth b1 b2 b3 b4 b5 b6,
        (SpecToRST.render_spec_tableF fuel spec tbl dc depth b1 b2 b3 b4 b5 b6).isSome = true) ∧
    (∀ (fuel : Nat) (g : GroupTree), g.gsize ≤ fuel →
      ∀ dc b1 b2 b3 st rd pr,
        (SpecToRST.render_group_specF fuel g dc b1 b2 b3 st rd pr).isSome = true) ∧
    (∀ (fuel : Nat) (th : TypeHierarchy), th.tsize ≤ fuel →
      ∀ d depth ind, (addSubHierarchyF fuel d th depth ind).isSome = true) :=
  ⟨render_spec_tableF_total, render_group_specF_total, addSubHierarchyF_total⟩

/-- A concrete one-node spec used to witness C6. -/
def specDataEx : SpecData :=
  { name := some "x"
    data_type_def := none
    data_type_inc := none
    doc := "doc"
    quantity := none
    dtype := none
    dims := none
    shape := none
    linkable := none
    required := none
    value := none
    default_value := none
    default_name := none
    target_type := "T" }

/-- Witness for C6: all three renderers complete on concrete one-node inputs
with fuel 1. -/
theorem C6_tree_traversal_terminates_witness :
    (SpecToRST.render_spec_tableF 1 (Spec.attr specDataEx) none "." 0
      true true true false false true).isSome = true ∧
    (SpecToRST.render_group_specF 1 (GroupTree.mk specDataEx [] [] [] []) "."
      true true true "par" none none).isSome = true ∧
    (addSubHierarchyF 1 RSTDocument.init (TypeHierarchy.mk []) 0 "   ").isSome = true :=
  ⟨C6_tree_traversal_terminates.1 1 (Spec.attr specDataEx) (by decide)
      none "." 0 true true true false false true,
   C6_tree_traversal_terminates.2.1 1 (GroupTree.mk specDataEx [] [] [] []) (by decide)
      "." true true true "par" none none,
   C6_tree_traversal_terminates.2.2 1 (TypeHierarchy.mk []) (by decide)
      RSTDocument.init 0 "   "⟩

/-! Claim C3: the document buffer is append-only. -/

/-- The document `d'` extends `d`: the old document string is a prefix of the
new one (something was appended), and the `newline` convention and
`default_indent` are untouched. -/
def DocExtends (d d' : RSTDocument) : Prop :=
  (∃ s, d'.document = d.document ++ s) ∧ d'.newline = d.newline ∧
    d'.default_indent = d.default_indent

theorem docExtends_refl (d : RSTDocument) : DocExtends d d :=
  ⟨⟨"", (String.append_nil _).symm⟩, rfl, rfl⟩

theorem docExtends_trans {a b c : RSTDocument} (h1 : DocExtends a b) (h2 : DocExtends b c) :
    DocExtends a c := by
  obtain ⟨⟨s1, hs1⟩, hn1, hi1⟩ := h1
  obtain ⟨⟨s2, hs2⟩, hn2, hi2⟩ := h2
  exact ⟨⟨s1 ++ s2, by rw [hs2, hs1, String.append_assoc]⟩, hn2.trans hn1, hi2.trans hi1⟩

theorem docExtends_add_text (d : RSTDocument) (t : String) : DocExtends d (d.add_text t) :=
  ⟨⟨t, rfl⟩, rfl, rfl⟩

theorem docExtends_add_text_of {d D : RSTDocument} {t : String} (h : DocExtends d D) :
    DocExtends d (D.add_text t) :=
  docExtends_trans h (docExtends_add_text D t)

theorem docExtends_ite {P : Prop} [Decidable P] {d A B : RSTDocument}
    (ha : DocExtends d A) (hb : DocExtends d B) : DocExtends d (if P then A else B) := by
  split
  · exact ha
  · exact hb

theorem docExtends_addIfSome {α : Type} {d D : RSTDocument} {o : Option α}
    {f : RSTDocument → α → RSTDocument} (hD : DocExtends d D)
    (hf : ∀ (D' : RSTDocument) (x : α), DocExtends D' (f D' x)) :
    DocExtends d (addIfSome D o f) := by
  cases o
  · exact hD
  · exact docExtends_trans hD (hf D _)

theorem docExtends_addIfNone {α : Type} {d D : RSTDocument} {o : Option α}
    {f : RSTDocument → RSTDocument} (hD : DocExtends d D)
    (hf : ∀ (D' : RSTDocument), DocExtends D' (f D')) :
    DocExtends d (addIfNone D o f) := by
  cases o
  · exact docExtends_trans hD (hf D)
  · exact hD

theorem docExtends_foldl {α : Type} {d : RSTDocument} {l : List α}
    {f : RSTDocument → α → RSTDocument} {D : RSTDocument} (hD : DocExtends d D)
    (hf : ∀ (D' : RSTDocument) (x : α), DocExtends D' (f D' x)) :
    DocExtends d (l.foldl f D) := by
  induction l generalizing D with
  | nil => exact hD
  | cons x xs ih => exact ih (docExtends_trans hD (hf D x))

theorem docExtends_add_label (d : RSTDocument) (l : String) :
    DocExtends d (d.add_label l) := by
  unfold RSTDocument.add_label
  repeat
    first
    | exact docExtends_refl _
    | apply docExtends_add_text_of

theorem docExtends_headings (d : RSTDocument) (t : String) :
    DocExtends d (d.add_part t) ∧ DocExtends d (d.add_chapter t) ∧
    DocExtends d (d.add_section t) ∧ DocExtends d (d.add_subsection t) ∧
    DocExtends d (d.add_subsubsection t) ∧ DocExtends d (d.add_paragraph t) := by
  refine ⟨?_, ?_, ?_, ?_, ?_, ?_⟩ <;>
    simp only [RSTDocument.add_part, RSTDocument.add_chapter, RSTDocument.add_section,
      RSTDocument.add_subsection, RSTDocument.add_subsubsection, RSTDocument.add_paragraph] <;>
    repeat
      first
      | exact docExtends_refl _
      | apply docExtends_add_text_of

theorem docExtends_add_code (d : RSTDocument) (cb ct : String) (sln : Bool)
    (el : Option (List Int)) : DocExtends d (d.add_code cb ct sln el) := by
  unfold RSTDocument.add_code
  repeat
    first
    | exact docExtends_refl _
    | apply docExtends_add_text_of
    | apply docExtends_ite
    | apply docExtends_addIfSome
    | apply docExtends_addIfNone
    | apply docExtends_foldl
    | intro _ _
    | intro _
    | dsimp only

mutual

theorem docExtends_add_list (d : RSTDocument) (content : List NestedList)
    (indent : Option String) (isym : String) :
    DocExtends d (RSTDocument.add_list d content indent isym) := by
  rw [RSTDocument.add_list]
  exact docExtends_trans (docExtends_add_list_go d content (indent.getD "") isym)
    (docExtends_add_text _ _)
  termination_by (sizeOf content, 1)

theorem docExtends_add_list_go (d : RSTDocument) (content : List NestedList)
    (ind : String) (isym : String) :
    DocExtends d (RSTDocument.add_list_go d content ind isym) := by
  cases content with
  | nil =>
    rw [RSTDocument.add_list_go]
    exact docExtends_refl d
  | cons item rest =>
    cases item with
    | sub l =>
      rw [RSTDocument.add_list_go]
      try dsimp only
      exact docExtends_trans (docExtends_add_list d l (some (ind ++ d.default_indent)) isym)
        (docExtends_add_list_go _ rest ind isym)
    | item s =>
      rw [RSTDocument.add_list_go]
      try dsimp only
      exact docExtends_trans (docExtends_add_text _ _)
        (docExtends_add_list_go _ rest ind isym)
  termination_by (sizeOf content, 0)

end

theorem docExtends_add_admonitions (d : RSTDocument) (atype : String)
    (text : Sum String RSTDocument) : DocExtends d (d.add_admonitions atype text) := by
  unfold RSTDocument.add_admonitions
  repeat
    first
    | exact docExtends_refl _
    | apply docExtends_add_text_of

theorem docExtends_add_include (d : RSTDocument) (fn : String) (ind : Option String) :
    DocExtends d (d.add_include fn ind) := by
  unfold RSTDocument.add_include
  repeat
    first
    | exact docExtends_refl _
    | apply docExtends_add_text_of

theorem docExtends_add_figure_rest (d : RSTDocument)
    (caption legend : Option (Sum String RSTDocument)) (target : Option String) :
    DocExtends d (RSTDocument.add_figure_rest d caption legend target).1 := by
  unfold RSTDocument.add_figure_rest
  dsimp only
  repeat
    first
    | exact docExtends_refl _
    | apply docExtends_add_text_of
    | apply docExtends_ite
    | apply docExtends_addIfSome
    | apply docExtends_addIfNone
    | intro _ _
    | intro _
    | dsimp only

theorem docExtends_add_figure_fst (d : RSTDocument) (img : String)
    (caption legend : Option (Sum String RSTDocument)) (alt : Option String)
    (hh ww sc : Option Int) (align target : Option String) :
    DocExtends d (d.add_figure img caption legend alt hh ww sc align target).1 := by
  unfold RSTDocument.add_figure
  cases align with
  | none =>
    dsimp only
    refine docExtends_trans ?_ (docExtends_add_figure_rest _ caption legend target)
    repeat
      first
      | exact docExtends_refl _
      | apply docExtends_add_text_of
      | apply docExtends_addIfSome
      | intro _ _
      | intro _
      | dsimp only
  | some al =>
    dsimp only
    by_cases hc : RSTDocument.ALIGN.contains al = true
    · rw [if_pos hc]
      refine docExtends_trans ?_ (docExtends_add_figure_rest _ caption legend target)
      repeat
        first
        | exact docExtends_refl _
        | apply docExtends_add_text_of
        | apply docExtends_addIfSome
        | intro _ _
        | intro _
        | dsimp only
    · rw [if_neg hc]
      dsimp only
      repeat
        first
        | exact docExtends_refl _
        | apply docExtends_add_text_of
        | apply docExtends_addIfSome
        | intro _ _
        | intro _
        | dsimp only

theorem docExtends_add_sidebar (d : RSTDocument) (text : Sum String RSTDocument)
    (title : String) (subtitle : Option String) :
    DocExtends d (d.add_sidebar text title subtitle) := by
  unfold RSTDocument.add_sidebar
  repeat
    first
    | exact docExtends_refl _
    | apply docExtends_add_text_of
    | apply docExtends_addIfSome
    | intro _ _
    | intro _
    | dsimp only

theorem docExtends_add_topic (d : RSTDocument) (text : Sum String RSTDocument)
    (title : String) : DocExtends d (d.add_topic text title) := by
  unfold RSTDocument.add_topic
  repeat
    first
    | exact docExtends_refl _
    | apply docExtends_add_text_of

theorem docExtends_add_latex_clearpage (d : RSTDocument) :
    DocExtends d d.add_latex_clearpage := by
  unfold RSTDocument.add_latex_clearpage
  repeat
    first
    | exact docExtends_refl _
    | apply docExtends_add_text_of

theorem docExtends_render_prelude (doc : RSTDocument) (title tc : Option String)
    (w : Option (List Int)) (tr ltc : Option String) :
    DocExtends doc (RSTTable.render_prelude doc title tc w tr ltc) := by
  unfold RSTTable.render_prelude
  repeat
    first
    | exact docExtends_refl _
    | apply docExtends_add_text_of
    | apply docExtends_ite
    | apply docExtends_addIfSome
    | apply docExtends_foldl
    | exact docExtends_add_label _ _
    | apply docExtends_trans (docExtends_add_label _ _)
    | intro _ _
    | intro _
    | dsimp only

theorem render_rows_extends (strT : List (List String)) :
    ∀ (cw : List Nat) (din dout : RSTDocument),
      RSTTable.render_rows din cw strT = some dout → DocExtends din dout := by
  induction strT with
  | nil =>
    intro cw din dout h
    unfold RSTTable.render_rows at h
    simp only [List.foldlM_nil] at h
    injection h with h
    exact h ▸ docExtends_refl din
  | cons row rows ih =>
    intro cw din dout h
    unfold RSTTable.render_rows at h
    rw [List.foldlM_cons] at h
    cases hr : RSTTable.render_row cw row din.newline with
    | none =>
      rw [hr] at h
      simp at h
    | some rt =>
      rw [hr] at h
      dsimp only at h
      have hmid := ih cw ((din.add_text rt).add_text (RSTTable.table_row_divider cw "-"))
        dout (by unfold RSTTable.render_rows; exact h)
      exact docExtends_trans
        (docExtends_add_text_of (docExtends_add_text din rt)) hmid

theorem render_ok_extends (t : RSTTable) (doc : RSTDocument) (title tc : Option String)
    (w : Option (List Int)) (ie : Bool) (tr ltc : Option String) (d' : RSTDocument)
    (h : t.render (some doc) title tc w ie tr ltc = .ok d') : DocExtends doc d' := by
  unfold RSTTable.render at h
  split at h
  · injection h with h
    cases h
    exact docExtends_refl doc
  · dsimp only at h
    split at h
    · exact Except.noConfusion h
    · split at h
      · exact Except.noConfusion h
      · split at h
        · exact Except.noConfusion h
        · injection h with h
          subst h
          rename_i dmid hmid
          refine docExtends_trans ?_ (docExtends_add_text_of (docExtends_add_text dmid _))
          refine docExtends_trans ?_ (render_rows_extends _ _ _ _ hmid)
          refine docExtends_add_text_of (docExtends_add_text_of ?_)
          exact docExtends_add_text_of (docExtends_render_prelude doc title tc w tr ltc)

/-- C3: the document buffer is append-only. The initial newline convention is
`"\n"`, and every content-adding operation of `RSTDocument` extends the
document: the old document string is a prefix of the new one, and
`self.newline` (and `default_indent`) are never changed. For `add_figure` this
also holds on the exceptional `ValueError` path (first component of the
returned pair); for `add_table` it is stated for the runs in which the inner
`RSTTable.render` returns normally. -/
theorem C3_document_append_only :
    RSTDocument.init.newline = "\n" ∧
    (∀ (d : RSTDocument) t, DocExtends d (d.add_text t)) ∧
    (∀ (d : RSTDocument) l, DocExtends d (d.add_label l)) ∧
    (∀ (d : RSTDocument) t, DocExtends d (d.add_part t)) ∧
    (∀ (d : RSTDocument) t, DocExtends d (d.add_chapter t)) ∧
    (∀ (d : RSTDocument) t, DocExtends d (d.add_section t)) ∧
    (∀ (d : RSTDocument) t, DocExtends d (d.add_subsection t)) ∧
    (∀ (d : RSTDocument) t, DocExtends d (d.add_subsubsection t)) ∧
    (∀ (d : RSTDocument) t, DocExtends d (d.add_paragraph t)) ∧
    (∀ (d : RSTDocument) cb ct sln el, DocExtends d (d.add_code cb ct sln el)) ∧
    (∀ (d : RSTDocument) content indent isym,
      DocExtends d (d.add_list content indent isym)) ∧
    (∀ (d : RSTDocument) atype text, DocExtends d (d.add_admonitions atype text)) ∧
    (∀ (d : RSTDocument) fn ind, DocExtends d (d.add_include fn ind)) ∧
    (∀ (d : RSTDocument) img caption legend alt hh ww sc align target,
      DocExtends d (d.add_figure img caption legend alt hh ww sc align target).1) ∧
    (∀ (d : RSTDocument) text title subtitle,
      DocExtends d (d.add_sidebar text title subtitle)) ∧
    (∀ (d : RSTDocument) text title, DocExtends d (d.add_topic text title)) ∧
    (∀ (d : RSTDocument) sy, DocExtends d (d.add_spec sy)) ∧
    (∀ (d : RSTDocument), DocExtends d d.add_latex_clearpage) ∧
    (∀ (d : RSTDocument) rt title tc w ie tr ltc d',
      RSTDocument.add_table d rt title tc w ie tr ltc = .ok d' → DocExtends d d') :=
  ⟨rfl,
   docExtends_add_text,
   docExtends_add_label,
   fun d t => (docExtends_headings d t).1,
   fun d t => (docExtends_headings d t).2.1,
   fun d t => (docExtends_headings d t).2.2.1,
   fun d t => (docExtends_headings d t).2.2.2.1,
   fun d t => (docExtends_headings d t).2.2.2.2.1,
   fun d t => (docExtends_headings d t).2.2.2.2.2,
   docExtends_add_code,
   docExtends_add_list,
   docExtends_add_admonitions,
   docExtends_add_include,
   docExtends_add_figure_fst,
   docExtends_add_sidebar,
   docExtends_add_topic,
   fun d sy => docExtends_add_code d sy "yaml" true none,
   docExtends_add_latex_clearpage,
   fun d rt title tc w ie tr ltc d' h => render_ok_extends rt d title tc w ie tr ltc d' h⟩

/-- Witness for C3's `add_table` conjunct: rendering a concrete one-cell table
into a fresh document succeeds and extends the document. -/
theorem C3_document_append_only_witness :
    ∃ d', RSTDocument.init.add_table
        (((RSTTable.init (.inl ["A"])).add_row (some [Cell.str "q"]) (Cell.str "") true).1)
        none (some "longtable") none true none none = .ok d' ∧
      DocExtends RSTDocument.init d' :=
  ⟨_, rfl,
    C3_document_append_only.2.2.2.2.2.2.2.2.2.2.2.2.2.2.2.2.2.2
      RSTDocument.init
      (((RSTTable.init (.inl ["A"])).add_row (some [Cell.str "q"]) (Cell.str "") true).1)
      none (some "longtable") none true none none _ rfl⟩

/-! Claims C4 and C5: string join and split machinery. -/

theorem string_foldl_append (l : List String) :
    ∀ a : String, l.foldl (· ++ ·) a = a ++ l.foldl (· ++ ·) "" := by
  induction l with
  | nil =>
    intro a
    rw [List.foldl_nil, List.foldl_nil]
    exact (String.append_nil a).symm
  | cons x xs ih =>
    intro a
    rw [List.foldl_cons, List.foldl_cons, ih (a ++ x), ih ("" ++ x), String.nil_append,
      String.append_assoc]

theorem string_join_cons (s : String) (l : List String) :
    String.join (s :: l) = s ++ String.join l := by
  show (s :: l).foldl (· ++ ·) "" = s ++ l.foldl (· ++ ·) ""
  rw [List.foldl_cons, String.nil_append, string_foldl_append]

theorem string_join_append (a b : List String) :
    String.join (a ++ b) = String.join a ++ String.join b := by
  induction a with
  | nil =>
    rw [List.nil_append]
    exact (String.nil_append _).symm
  | cons x xs ih =>
    rw [List.cons_append, string_join_cons, string_join_cons, ih, String.append_assoc]

theorem string_data_join (L : List String) :
    (String.join L).data = (L.map String.data).join := by
  induction L with
  | nil => rfl
  | cons x xs ih =>
    rw [string_join_cons, String.data_append, List.map_cons]
    show x.data ++ (String.join xs).data = x.data ++ (List.map String.data xs).join
    rw [ih]

theorem string_join_length (L : List String) :
    (String.join L).length = (L.map String.length).sum := by
  induction L with
  | nil => rfl
  | cons x xs ih => rw [string_join_cons, String.length_append, List.map_cons, List.sum_cons, ih]

theorem foldl_append_eq_join {α : Type} (xs : List α) (f : α → String) (init : String) :
    xs.foldl (fun acc x => acc ++ f x) init = init ++ String.join (xs.map f) := by
  induction xs generalizing init with
  | nil =>
    rw [List.foldl_nil, List.map_nil]
    exact (String.append_nil init).symm
  | cons x xs ih =>
    rw [List.foldl_cons, ih, List.map_cons, string_join_cons, ← String.append_assoc]

theorem pySplitAux_single_cons (a c : Char) (rest acc : List Char) :
    pySplitAux [a] (c :: rest) acc =
      if c = a then acc.reverse :: pySplitAux [a] rest []
      else pySplitAux [a] rest (c :: acc) := by
  rw [pySplitAux]
  by_cases hca : c = a
  · have hcond : 0 < ([a] : List Char).length ∧ leadsWith [a] (c :: rest) = true := by
      refine ⟨by simp, ?_⟩
      simp [leadsWith, hca]
    rw [dif_pos hcond, if_pos hca]
    rfl
  · have hcond : ¬(0 < ([a] : List Char).length ∧ leadsWith [a] (c :: rest) = true) := by
      intro hcon
      apply hca
      have h2 := hcon.2
      simp [leadsWith] at h2
      exact h2.symm
    rw [dif_neg hcond, if_neg hca]

theorem pySplitAux_pieces (a : Char) (l : List Char) :
    ∀ acc : List Char, a ∉ acc → ∀ p ∈ pySplitAux [a] l acc, a ∉ p := by
  induction l with
  | nil =>
    intro acc hacc p hp
    rw [pySplitAux] at hp
    simp only [List.mem_singleton] at hp
    subst hp
    simpa using hacc
  | cons c rest ih =>
    intro acc hacc p hp
    rw [pySplitAux_single_cons] at hp
    by_cases hca : c = a
    · rw [if_pos hca] at hp
      rcases List.mem_cons.mp hp with h | h
      · subst h
        simpa using hacc
      · exact ih [] (List.not_mem_nil a) p h
    · rw [if_neg hca] at hp
      refine ih (c :: acc) ?_ p hp
      intro hm
      rcases List.mem_cons.mp hm with h | h
      · exact hca h.symm
      · exact hacc h

theorem pySplitAux_line (a : Char) (line : List Char) (hl : a ∉ line) (rest : List Char) :
    ∀ acc, pySplitAux [a] (line ++ a :: rest) acc =
      (acc.reverse ++ line) :: pySplitAux [a] rest [] := by
  induction line with
  | nil =>
    intro acc
    rw [List.nil_append, pySplitAux_single_cons, if_pos rfl, List.append_nil]
  | cons c cs ih =>
    intro acc
    have hca : c ≠ a := by
      intro h
      subst h
      exact hl (List.mem_cons_self c cs)
    rw [List.cons_append, pySplitAux_single_cons, if_neg hca,
      ih (fun hm => hl (List.mem_cons_of_mem c hm)) (c :: acc)]
    simp [List.reverse_cons, List.append_assoc]

theorem pySplitAux_joinlines (a : Char) (lines : List (List Char))
    (hl : ∀ p ∈ lines, a ∉ p) :
    pySplitAux [a] ((lines.map (fun l => l ++ [a])).join) [] = lines ++ [[]] := by
  induction lines with
  | nil =>
    show pySplitAux [a] [] [] = [] ++ [[]]
    rw [pySplitAux]
    rfl
  | cons l ls ih =>
    show pySplitAux [a] ((l ++ [a]) ++ (List.map (fun l => l ++ [a]) ls).join) [] =
      (l :: ls) ++ [[]]
    have hstep : (l ++ [a]) ++ (ls.map (fun l => l ++ [a])).join =
        l ++ (a :: (ls.map (fun l => l ++ [a])).join) := by
      rw [List.append_assoc]
      rfl
    rw [hstep, pySplitAux_line a l (hl l (List.mem_cons_self l ls)) _ [], List.reverse_nil,
      List.nil_append, ih (fun p hp => hl p (List.mem_cons_of_mem l hp))]
    rfl

theorem pySplit_newline (s : String) :
    pySplit s "\n" = (pySplitAux ['\n'] s.data []).map String.mk := rfl

theorem pySplit_pieces_no_newline (s p : String) (hp : p ∈ pySplit s "\n") :
    '\n' ∉ p.data := by
  rw [pySplit_newline] at hp
  rcases List.mem_map.mp hp with ⟨pc, hpc, rfl⟩
  exact pySplitAux_pieces '\n' s.data [] (List.not_mem_nil _) pc hpc

theorem pySplit_joinlines (lines : List String) (h : ∀ p ∈ lines, '\n' ∉ p.data) :
    pySplit (String.join (lines.map (fun l => l ++ "\n"))) "\n" = lines ++ [""] := by
  rw [pySplit_newline]
  have hdata : (String.join (lines.map (fun l => l ++ "\n"))).data =
      ((lines.map String.data).map (fun l => l ++ ['\n'])).join := by
    rw [string_data_join, List.map_map, List.map_map]
    congr 1
  rw [hdata, pySplitAux_joinlines '\n' (lines.map String.data)
    (by intro p hp; rcases List.mem_map.mp hp with ⟨q, hq, rfl⟩; exact h q hq)]
  rw [List.map_append, List.map_map]
  have hid : (String.mk ∘ String.data) = id := funext (fun s => rfl)
  rw [hid, List.map_id]
  rfl

theorem render_row_line_eq (cw : List Nat) (rls : List (List String)) (l : Nat) :
    RSTTable.render_row_line cw rls l =
      "    |" ++ String.join ((List.range rls.length).map (fun ri =>
        RSTTable.normalize_cell ((rls.getD ri []).getD l "") (cw.getD ri 0) ++ "|")) := by
  unfold RSTTable.render_row_line
  rw [foldl_append_eq_join]

theorem render_row_eq (cw : List Nat) (row : List String) (nl : String)
    (hrow : row ≠ []) (hlen : row.length ≤ cw.length) :
    RSTTable.render_row cw row nl =
      some (String.join
        ((List.range ((row.map (fun r => (pySplit r nl).length)).foldl Nat.max 0)).map
          (fun l => RSTTable.render_row_line cw (row.map (fun r => pySplit r nl)) l ++ nl))) := by
  unfold RSTTable.render_row
  cases row with
  | nil => exact absurd rfl hrow
  | cons r rs =>
    dsimp only
    rw [if_pos hlen, foldl_append_eq_join, String.nil_append, List.map_map]
    rfl

theorem mem_strMul_data (n : Nat) (s : String) (c : Char) (h : c ∈ (strMul n s).data) :
    c ∈ s.data := by
  induction n with
  | zero => exact absurd h (List.not_mem_nil c)
  | succ n ih =>
    have hd : (strMul (n + 1) s).data = s.data ++ (strMul n s).data := by
      show (s ++ strMul n s).data = _
      rw [String.data_append]
    rw [hd] at h
    rcases List.mem_append.mp h with h | h
    · exact h
    · exact ih h

theorem normalize_cell_no_newline (cell : String) (w : Nat) (h : '\n' ∉ cell.data) :
    '\n' ∉ (RSTTable.normalize_cell cell w).data := by
  unfold RSTTable.normalize_cell
  intro hm
  rw [String.data_append, String.data_append] at hm
  rcases List.mem_append.mp hm with hm | hm
  · rcases List.mem_append.mp hm with hm | hm
    · exact absurd hm (by decide)
    · exact h hm
  · have hsp := mem_strMul_data _ _ _ hm
    exact absurd hsp (by decide)

theorem render_row_line_no_newline (cw : List Nat) (rls : List (List String)) (l : Nat)
    (h : ∀ cl ∈ rls, ∀ p ∈ cl, '\n' ∉ p.data) :
    '\n' ∉ (RSTTable.render_row_line cw rls l).data := by
  rw [render_row_line_eq]
  intro hm
  rw [String.data_append] at hm
  rcases List.mem_append.mp hm with hm | hm
  · exact absurd hm (by decide)
  · rw [string_data_join, List.map_map] at hm
    rcases List.mem_join.mp hm with ⟨piece, hpiece, hmem⟩
    rcases List.mem_map.mp hpiece with ⟨ri, _, rfl⟩
    simp only [Function.comp_apply, String.data_append] at hmem
    rcases List.mem_append.mp hmem with hmem | hmem
    · refine normalize_cell_no_newline _ _ ?_ hmem
      by_cases hri : ri < rls.length
      · by_cases hl : l < (rls.getD ri []).length
        · refine h (rls.getD ri []) ?_ _ ?_
          · rw [List.getD_eq_getElem _ _ hri]
            exact List.getElem_mem _
          · rw [List.getD_eq_getElem _ _ hl]
            exact List.getElem_mem _
        · rw [List.getD_eq_default _ _ (Nat.le_of_not_lt hl)]
          decide
      · rw [List.getD_eq_default _ _ (Nat.le_of_not_lt hri),
          List.getD_eq_default _ _ (Nat.zero_le l)]
        decide
    · exact absurd hmem (by decide)

/-- C5: multi-line cell wrapping. For a nonempty `row` and a `col_widths` list
of the same length, `render_row` (with newline `"\n"`) succeeds and its output,
split back into lines, is exactly `max_i k_i` lines (`k_i` the number of
newline-split lines of cell `i`, the maximum taken as a fold from 0) followed
by the empty trailer of the final newline; output line `l` is `"    |"`
followed, for each column `i`, by the `normalize_cell`-padded `l`-th line of
cell `i` when it has one and a padded empty cell otherwise, each closed by
`"|"`. -/
theorem C5_render_row (cw : List Nat) (row : List String)
    (hrow : row ≠ []) (hlen : cw.length = row.length) :
    ∃ s, RSTTable.render_row cw row "\n" = some s ∧
      pySplit s "\n" =
        (List.range ((row.map (fun r => (pySplit r "\n").length)).foldl Nat.max 0)).map
          (fun l => "    |" ++ String.join ((List.range row.length).map (fun i =>
            let cl := pySplit (row.getD i "") "\n"
            RSTTable.normalize_cell (if l < cl.length then cl.getD l "" else "")
              (cw.getD i 0) ++ "|"))) ++ [""] := by
  refine ⟨_, render_row_eq cw row "\n" hrow (le_of_eq hlen.symm), ?_⟩
  have hcl : ∀ cl ∈ row.map (fun r => pySplit r "\n"), ∀ p ∈ cl, '\n' ∉ p.data := by
    intro cl hclm p hp
    rcases List.mem_map.mp hclm with ⟨r, _, rfl⟩
    exact pySplit_pieces_no_newline r p hp
  have h2 : String.join
      ((List.range ((row.map (fun r => (pySplit r "\n").length)).foldl Nat.max 0)).map
        (fun l => RSTTable.render_row_line cw (row.map (fun r => pySplit r "\n")) l ++ "\n")) =
      String.join
        (((List.range ((row.map (fun r => (pySplit r "\n").length)).foldl Nat.max 0)).map
          (RSTTable.render_row_line cw (row.map (fun r => pySplit r "\n")))).map
            (fun l => l ++ "\n")) := by
    rw [List.map_map]
    rfl
  rw [h2, pySplit_joinlines _ (by
    intro p hp
    rcases List.mem_map.mp hp with ⟨l, _, rfl⟩
    exact render_row_line_no_newline cw _ l hcl)]
  congr 1
  apply List.map_eq_map_iff.mpr
  intro l _
  rw [render_row_line_eq, List.length_map]
  congr 1
  congr 1
  apply List.map_eq_map_iff.mpr
  intro i hi
  have hi2 : i < row.length := List.mem_range.mp hi
  have hr : (row.map (fun r => pySplit r "\n")).getD i [] = pySplit (row.getD i "") "\n" := by
    rw [List.getD_eq_getElem _ _ (by rw [List.length_map]; exact hi2), List.getElem_map,
      List.getD_eq_getElem _ _ hi2]
  rw [hr]
  dsimp only
  by_cases hl : l < (pySplit (row.getD i "") "\n").length
  · rw [if_pos hl]
  · rw [if_neg hl, List.getD_eq_default _ _ (Nat.le_of_not_lt hl)]

/-- Witness for C5 at a concrete two-column row with a two-line first cell. -/
theorem C5_render_row_witness :
    ∃ s, RSTTable.render_row [1, 1] ["a\nb", "c"] "\n" = some s ∧
      pySplit s "\n" =
        (List.range (((["a\nb", "c"] : List String).map
            (fun r => (pySplit r "\n").length)).foldl Nat.max 0)).map
          (fun l => "    |" ++ String.join ((List.range
              (["a\nb", "c"] : List String).length).map (fun i =>
            let cl := pySplit ((["a\nb", "c"] : List String).getD i "") "\n"
            RSTTable.normalize_cell (if l < cl.length then cl.getD l "" else "")
              (([1, 1] : List Nat).getD i 0) ++ "|"))) ++ [""] :=
  C5_render_row [1, 1] ["a\nb", "c"] (by decide) (by decide)

/-! Claim C4: machinery for fixed-width, column-aligned table rendering. -/

theorem foldl_min_const {α : Type} (n : Nat) (rs : List (List α))
    (h : ∀ x ∈ rs, x.length = n) : rs.foldl (fun m x => Nat.min m x.length) n = n := by
  induction rs with
  | nil => rfl
  | cons r rest ih =>
    rw [List.foldl_cons, h r (List.mem_cons_self r rest)]
    have hmin : Nat.min n n = n := Nat.min_self n
    rw [hmin]
    exact ih (fun x hx => h x (List.mem_cons_of_mem r hx))

theorem pyZipT_eq (n : Nat) (r : List Nat) (rs : List (List Nat))
    (h : ∀ x ∈ r :: rs, x.length = n) :
    pyZipT (r :: rs) =
      (List.range n).map (fun i => (r :: rs).map (fun row => row.getD i 0)) := by
  unfold pyZipT
  dsimp only
  rw [h r (List.mem_cons_self r rs),
    foldl_min_const n rs (fun x hx => h x (List.mem_cons_of_mem r hx))]

theorem getD_map_lt {α β : Type} (f : α → β) (l : List α) (i : Nat) (h : i < l.length)
    (d : α) (e : β) : (l.map f).getD i e = f (l.getD i d) := by
  rw [List.getD_eq_getElem _ _ (by rw [List.length_map]; exact h), List.getElem_map,
    List.getD_eq_getElem _ _ h]

theorem range_map_getD {β : Type} (n : Nat) (f : Nat → β) (i : Nat) (h : i < n) (e : β) :
    ((List.range n).map f).getD i e = f i := by
  rw [List.getD_eq_getElem _ _ (by simp [h]), List.getElem_map, List.getElem_range]

theorem render_col_widths_eq (header : List String) (strT : List (List String)) (nl : String)
    (n : Nat) (hh : header.length = n) (hr : ∀ row ∈ strT, row.length = n) :
    RSTTable.render_col_widths header strT nl =
      (List.range n).map (fun i =>
        ((header :: strT).map (fun row => RSTTable.cell_len (row.getD i "") nl)).foldl
          Nat.max 0 + 2) := by
  unfold RSTTable.render_col_widths
  rw [List.map_cons]
  rw [pyZipT_eq n _ _ (by
    rw [← List.map_cons]
    intro x hx
    rcases List.mem_map.mp hx with ⟨row, hrow, rfl⟩
    rw [List.length_map]
    rcases List.mem_cons.mp hrow with h | h
    · rw [h]; exact hh
    · exact hr row h)]
  rw [List.map_map]
  apply List.map_eq_map_iff.mpr
  intro i hi
  have hi2 : i < n := List.mem_range.mp hi
  simp only [Function.comp_apply]
  congr 1
  rw [← List.map_cons, List.map_map]
  congr 1
  apply List.map_eq_map_iff.mpr
  intro row hrow
  have hlen : row.length = n := by
    rcases List.mem_cons.mp hrow with h | h
    · rw [h]; exact hh
    · exact hr row h
  simp only [Function.comp_apply]
  exact getD_map_lt _ row i (by rw [hlen]; exact hi2) "" 0

theorem foldl_max_init_le (l : List Nat) (b : Nat) : b ≤ l.foldl Nat.max b := by
  induction l generalizing b with
  | nil => exact Nat.le_refl b
  | cons x xs ih => exact Nat.le_trans (Nat.le_max_left b x) (ih (Nat.max b x))

theorem mem_le_foldl_max (l : List Nat) (a : Nat) : a ∈ l → ∀ b, a ≤ l.foldl Nat.max b := by
  induction l with
  | nil => intro h; exact absurd h (List.not_mem_nil a)
  | cons x xs ih =>
    intro h b
    rcases List.mem_cons.mp h with h2 | h2
    · subst h2
      exact Nat.le_trans (Nat.le_max_right b a) (foldl_max_init_le xs _)
    · exact ih h2 (Nat.max b x)

theorem normalize_cell_length (cell : String) (w : Nat) (h : cell.length ≤ w + 1) :
    (RSTTable.normalize_cell cell w).length = w + 2 := by
  unfold RSTTable.normalize_cell
  rw [String.length_append, String.length_append, strMul_length]
  have h1 : (" " : String).length = 1 := rfl
  rw [h1]
  have h2 : (((w : Int)) - (cell.length : Int) + 1).toNat = w + 1 - cell.length := by omega
  rw [h2]
  omega

theorem pySplit_line_le_cell_len (cell nl : String) (l : Nat) :
    ((pySplit cell nl).getD l "").length ≤ RSTTable.cell_len cell nl := by
  unfold RSTTable.cell_len
  by_cases hl : l < (pySplit cell nl).length
  · refine mem_le_foldl_max _ _ ?_ 0
    refine List.mem_map.mpr ⟨(pySplit cell nl).getD l "", ?_, rfl⟩
    rw [List.getD_eq_getElem _ _ hl]
    exact List.getElem_mem _
  · rw [List.getD_eq_default _ _ (Nat.le_of_not_lt hl)]
    exact Nat.zero_le _

theorem cell_len_le_colmax (rows : List (List String)) (row : List String) (hrow : row ∈ rows)
    (i : Nat) (nl : String) :
    RSTTable.cell_len (row.getD i "") nl ≤
      (rows.map (fun row => RSTTable.cell_len (row.getD i "") nl)).foldl Nat.max 0 := by
  refine mem_le_foldl_max _ _ ?_ 0
  exact List.mem_map.mpr ⟨row, hrow, rfl⟩

theorem data_append_getD_right (a b : String) (k : Nat) (d : Char) :
    (a ++ b).data.getD (a.length + k) d = b.data.getD k d := by
  rw [String.data_append, List.getD_eq_getElem?_getD, List.getD_eq_getElem?_getD]
  have hlen : a.data.length = a.length := rfl
  rw [List.getElem?_append_right (by rw [hlen]; omega)]
  have hidx : a.length + k - a.data.length = k := by rw [hlen]; omega
  rw [hidx]

theorem join_sep_getD (c : Char) (post : String) (hpost : post.data.getD 0 ' ' = c) :
    ∀ (segs : List String), (∀ s ∈ segs, s.data ≠ [] ∧ s.data.getD 0 ' ' = c) →
    ∀ j, j ≤ segs.length →
      (String.join segs ++ post).data.getD (((segs.take j).map String.length).sum) ' ' = c := by
  intro segs
  induction segs with
  | nil =>
    intro _ j hj
    have hj0 : j = 0 := Nat.le_zero.mp hj
    subst hj0
    have hnil : String.join ([] : List String) ++ post = post := String.nil_append post
    show (String.join ([] : List String) ++ post).data.getD 0 ' ' = c
    rw [hnil, hpost]
  | cons s ss ih =>
    intro hsegs j hj
    cases j with
    | zero =>
      show (String.join (s :: ss) ++ post).data.getD 0 ' ' = c
      rw [string_join_cons, String.append_assoc, String.data_append]
      have hs := hsegs s (List.mem_cons_self s ss)
      rw [List.getD_eq_getElem?_getD, List.getElem?_append_left (by
        cases hd : s.data with
        | nil => exact absurd hd hs.1
        | cons a l => exact Nat.succ_pos _), ← List.getD_eq_getElem?_getD]
      exact hs.2
    | succ j =>
      have hstep : ((s :: ss).take (j + 1)).map String.length =
          s.length :: (ss.take j).map String.length := rfl
      rw [hstep, List.sum_cons, string_join_cons, String.append_assoc,
        data_append_getD_right s _ _ ' ']
      exact ih (fun x hx => hsegs x (List.mem_cons_of_mem s hx)) j (Nat.le_of_succ_le_succ hj)

theorem join_shift (b : String) (l : List String) :
    b ++ String.join (l.map (fun x => x ++ b)) =
      String.join (l.map (fun x => b ++ x)) ++ b := by
  induction l with
  | nil =>
    show b ++ String.join [] = String.join [] ++ b
    show b ++ "" = "" ++ b
    rw [String.append_empty, String.empty_append]
  | cons x xs ih =>
    rw [List.map_cons, List.map_cons, string_join_cons, string_join_cons]
    apply String.ext
    have hd := congrArg String.data ih
    simp only [String.data_append] at hd ⊢
    rw [List.append_assoc, hd, ← List.append_assoc, ← List.append_assoc]

theorem render_row_line_shift (cw : List Nat) (rls : List (List String)) (l : Nat) :
    RSTTable.render_row_line cw rls l =
      "    " ++ (String.join ((List.range rls.length).map (fun ri =>
        "|" ++ RSTTable.normalize_cell ((rls.getD ri []).getD l "") (cw.getD ri 0))) ++ "|") := by
  rw [render_row_line_eq]
  have h0 : ("    |" : String) = "    " ++ "|" := rfl
  rw [h0, String.append_assoc]
  congr 1
  have hj := join_shift "|" ((List.range rls.length).map (fun ri =>
    RSTTable.normalize_cell ((rls.getD ri []).getD l "") (cw.getD ri 0)))
  rw [List.map_map, List.map_map] at hj
  exact hj

theorem table_row_divider_eq (cw : List Nat) (style : String) :
    RSTTable.table_row_divider cw style =
      ("    " ++ (String.join (cw.map (fun w => "+" ++ strMul (w + 2) style)) ++ "+")) ++
        "\n" := by
  unfold RSTTable.table_row_divider
  dsimp only
  rw [foldl_append_eq_join]
  apply String.ext
  simp only [String.data_append, List.append_assoc]
  rfl

theorem range_getD_map (f : Nat → Nat) (cw : List Nat) :
    (List.range cw.length).map (fun i => f (cw.getD i 0)) = cw.map f := by
  apply List.ext_getElem
  · simp
  · intro k h1 h2
    simp only [List.getElem_map, List.getElem_range]
    rw [List.getD_eq_getElem _ _ (by simpa using h2)]

theorem sep_line_facts (segs : List String) (lens : List Nat) (c : Char) (cstr : String)
    (hc : cstr.data = [c])
    (hsegs : segs.map String.length = lens.map (fun w => w + 3))
    (hheads : ∀ s ∈ segs, s.data ≠ [] ∧ s.data.getD 0 ' ' = c) :
    ("    " ++ (String.join segs ++ cstr)).length = 5 + (lens.map (fun w => w + 3)).sum ∧
    ∀ j ≤ lens.length, ("    " ++ (String.join segs ++ cstr)).data.getD
        (4 + ((lens.take j).map (fun w => w + 3)).sum) ' ' = c := by
  have hcl : cstr.length = 1 := by
    show cstr.data.length = 1
    rw [hc]
    rfl
  have hseglen : segs.length = lens.length := by
    have := congrArg List.length hsegs
    rw [List.length_map, List.length_map] at this
    exact this
  constructor
  · rw [String.length_append, String.length_append, string_join_length, hsegs, hcl]
    have h4 : ("    " : String).length = 4 := rfl
    rw [h4]
    omega
  · intro j hj
    have htake : (segs.take j).map String.length = (lens.take j).map (fun w => w + 3) := by
      rw [List.map_take, List.map_take, hsegs]
    have hpos := join_sep_getD c cstr (by rw [hc]; rfl) segs hheads j (by omega)
    rw [htake] at hpos
    have hlift := data_append_getD_right "    " (String.join segs ++ cstr)
      (((lens.take j).map (fun w => w + 3)).sum) ' '
    exact hlift.trans hpos

theorem add_text_add_text (d : RSTDocument) (a b : String) :
    (d.add_text a).add_text b = d.add_text (a ++ b) := by
  unfold RSTDocument.add_text
  rw [String.append_assoc]

theorem divider_line_facts (cw : List Nat) (style : String) (hs : style.length = 1) :
    ("    " ++ (String.join (cw.map (fun w => "+" ++ strMul (w + 2) style)) ++ "+")).length
        = 5 + (cw.map (fun w => w + 3)).sum ∧
    ∀ j ≤ cw.length,
      ("    " ++ (String.join (cw.map (fun w => "+" ++ strMul (w + 2) style)) ++
        "+")).data.getD (4 + ((cw.take j).map (fun w => w + 3)).sum) ' ' = '+' := by
  apply sep_line_facts _ cw '+' "+" rfl
  · rw [List.map_map]
    apply List.map_eq_map_iff.mpr
    intro w _
    show ("+" ++ strMul (w + 2) style).length = w + 3
    rw [String.length_append, strMul_length, hs]
    have h1 : ("+" : String).length = 1 := rfl
    rw [h1]
    omega
  · intro s hsm
    rcases List.mem_map.mp hsm with ⟨w, _, rfl⟩
    constructor
    · show ("+" ++ strMul (w + 2) style).data ≠ []
      rw [String.data_append]
      simp
    · show (("+" ++ strMul (w + 2) style).data).getD 0 ' ' = '+'
      rw [String.data_append]
      rfl

theorem row_line_facts (cw : List Nat) (rls : List (List String)) (l : Nat)
    (hlen : rls.length = cw.length)
    (hnorm : ∀ ri, ri < cw.length → ((rls.getD ri []).getD l "").length ≤ cw.getD ri 0 + 1) :
    (RSTTable.render_row_line cw rls l).length = 5 + (cw.map (fun w => w + 3)).sum ∧
    ∀ j ≤ cw.length, (RSTTable.render_row_line cw rls l).data.getD
        (4 + ((cw.take j).map (fun w => w + 3)).sum) ' ' = '|' := by
  rw [render_row_line_shift, hlen]
  apply sep_line_facts _ cw '|' "|" rfl
  · rw [List.map_map, ← range_getD_map (fun w => w + 3) cw]
    apply List.map_eq_map_iff.mpr
    intro ri hri
    have hri2 : ri < cw.length := List.mem_range.mp hri
    show ("|" ++ RSTTable.normalize_cell ((rls.getD ri []).getD l "")
      (cw.getD ri 0)).length = cw.getD ri 0 + 3
    rw [String.length_append, normalize_cell_length _ _ (hnorm ri hri2)]
    have h1 : ("|" : String).length = 1 := rfl
    rw [h1]
    omega
  · intro s hsm
    rcases List.mem_map.mp hsm with ⟨ri, _, rfl⟩
    constructor
    · show ("|" ++ _).data ≠ []
      rw [String.data_append]
      simp
    · show (("|" ++ _).data).getD 0 ' ' = '|'
      rw [String.data_append]
      rfl

theorem divider_line_no_newline (cw : List Nat) (style : String) (hs : '\n' ∉ style.data) :
    '\n' ∉ ("    " ++ (String.join (cw.map (fun w => "+" ++ strMul (w + 2) style)) ++
      "+")).data := by
  intro hm
  rw [String.data_append, String.data_append] at hm
  rcases List.mem_append.mp hm with hm | hm
  · exact absurd hm (by decide)
  · rcases List.mem_append.mp hm with hm | hm
    · rw [string_data_join, List.map_map] at hm
      rcases List.mem_join.mp hm with ⟨piece, hpiece, hmem⟩
      rcases List.mem_map.mp hpiece with ⟨w, _, rfl⟩
      simp only [Function.comp_apply, String.data_append] at hmem
      rcases List.mem_append.mp hmem with hmem | hmem
      · exact absurd hmem (by decide)
      · exact hs (mem_strMul_data _ _ _ hmem)
    · exact absurd hm (by decide)

theorem render_rows_eq (cw : List Nat) (strT : List (List String))
    (h : ∀ row ∈ strT, row ≠ [] ∧ row.length ≤ cw.length) :
    ∀ doc : RSTDocument, doc.newline = "\n" →
    RSTTable.render_rows doc cw strT =
      some (doc.add_text (String.join (strT.map (fun row =>
        String.join ((List.range ((row.map (fun r => (pySplit r "\n").length)).foldl
            Nat.max 0)).map
          (fun l => RSTTable.render_row_line cw (row.map (fun r => pySplit r "\n")) l ++ "\n"))
        ++ RSTTable.table_row_divider cw "-")))) := by
  induction strT with
  | nil =>
    intro doc hnl
    unfold RSTTable.render_rows
    have hadd : doc.add_text (String.join (([] : List (List String)).map (fun row =>
        String.join ((List.range ((row.map (fun r => (pySplit r "\n").length)).foldl
            Nat.max 0)).map
          (fun l => RSTTable.render_row_line cw (row.map (fun r => pySplit r "\n")) l ++ "\n"))
        ++ RSTTable.table_row_divider cw "-"))) = doc := by
      show doc.add_text "" = doc
      unfold RSTDocument.add_text
      rw [String.append_empty]
    rw [hadd]
    rfl
  | cons row rest ih =>
    intro doc hnl
    have hrow := h row (List.mem_cons_self row rest)
    unfold RSTTable.render_rows
    rw [List.foldlM_cons]
    rw [hnl, render_row_eq cw row "\n" hrow.1 hrow.2]
    show RSTTable.render_rows ((doc.add_text (String.join
        ((List.range ((row.map (fun r => (pySplit r "\n").length)).foldl Nat.max 0)).map
          (fun l => RSTTable.render_row_line cw (row.map (fun r => pySplit r "\n")) l ++
            "\n")))).add_text (RSTTable.table_row_divider cw "-")) cw rest = _
    rw [ih (fun r hr => h r (List.mem_cons_of_mem row hr))
      ((doc.add_text (String.join
        ((List.range ((row.map (fun r => (pySplit r "\n").length)).foldl Nat.max 0)).map
          (fun l => RSTTable.render_row_line cw (row.map (fun r => pySplit r "\n")) l ++
            "\n")))).add_text (RSTTable.table_row_divider cw "-")) hnl]
    rw [add_text_add_text, add_text_add_text, List.map_cons, string_join_cons,
      String.append_assoc]

theorem rstdoc_eq (d d2 : RSTDocument) (h1 : d.document = d2.document)
    (h2 : d.newline = d2.newline) (h3 : d.default_indent = d2.default_indent) : d = d2 := by
  cases d
  cases d2
  cases h1
  cases h2
  cases h3
  rfl

theorem render_ok_eq (t : RSTTable) (doc0 : RSTDocument) (strT : List (List String))
    (title table_class : Option String) (widths : Option (List Int)) (ie : Bool)
    (tref ltc : Option String)
    (hnl : doc0.newline = "\n") (hcols : t.cols ≠ [])
    (hstr : t.strRows = some strT)
    (hlens : ∀ row ∈ strT, row ≠ [] ∧ row.length ≤ (RSTTable.render_col_widths t.cols strT "\n").length)
    (hhdr : t.cols.length ≤ (RSTTable.render_col_widths t.cols strT "\n").length)
    (hne : ¬(t.table.length = 0 ∧ ie = true)) :
    t.render (some doc0) title table_class widths ie tref ltc =
      .ok ((RSTTable.render_prelude doc0 title table_class widths tref ltc).add_text (RSTTable.table_row_divider (RSTTable.render_col_widths t.cols strT "\n") "-" ++ (String.join ((List.range ((t.cols.map (fun r => (pySplit r "\n").length)).foldl Nat.max 0)).map (fun l => RSTTable.render_row_line (RSTTable.render_col_widths t.cols strT "\n") (t.cols.map (fun r => pySplit r "\n")) l ++ "\n"))) ++ RSTTable.table_row_divider (RSTTable.render_col_widths t.cols strT "\n") "=" ++ (String.join (strT.map (fun row => String.join ((List.range ((row.map (fun r => (pySplit r "\n").length)).foldl Nat.max 0)).map (fun l => RSTTable.render_row_line (RSTTable.render_col_widths t.cols strT "\n") (row.map (fun r => pySplit r "\n")) l ++ "\n")) ++ RSTTable.table_row_divider (RSTTable.render_col_widths t.cols strT "\n") "-"))) ++ "\n" ++ "\n")) := by
  unfold RSTTable.render
  rw [if_neg hne]
  dsimp only
  rw [hstr]
  dsimp only
  rw [hnl]
  have hprenl : (RSTTable.render_prelude doc0 title table_class widths tref ltc).newline = "\n" := by
    rw [(docExtends_render_prelude doc0 title table_class widths tref ltc).2.1, hnl]
  have hnl1 : ((RSTTable.render_prelude doc0 title table_class widths tref ltc).add_text (RSTTable.table_row_divider (RSTTable.render_col_widths t.cols strT "\n") "-")).newline = "\n" := hprenl
  rw [hnl1]
  rw [render_row_eq (RSTTable.render_col_widths t.cols strT "\n") t.cols "\n" hcols hhdr]
  dsimp only
  rw [render_rows_eq (RSTTable.render_col_widths t.cols strT "\n") strT hlens ((((RSTTable.render_prelude doc0 title table_class widths tref ltc).add_text (RSTTable.table_row_divider (RSTTable.render_col_widths t.cols strT "\n") "-")).add_text (String.join ((List.range ((t.cols.map (fun r => (pySplit r "\n").length)).foldl Nat.max 0)).map (fun l => RSTTable.render_row_line (RSTTable.render_col_widths t.cols strT "\n") (t.cols.map (fun r => pySplit r "\n")) l ++ "\n")))).add_text (RSTTable.table_row_divider (RSTTable.render_col_widths t.cols strT "\n") "=")) hprenl]
  dsimp only
  refine congrArg Except.ok ?_
  apply rstdoc_eq
  · simp only [RSTDocument.add_text]
    rw [hprenl]
    apply String.ext
    simp only [String.data_append, List.append_assoc]
  · rfl
  · rfl

theorem joinlines_append (a b : List String) :
    String.join ((a ++ b).map (fun x => x ++ "\n")) =
      String.join (a.map (fun x => x ++ "\n")) ++ String.join (b.map (fun x => x ++ "\n")) := by
  rw [List.map_append, string_join_append]

theorem joinlines_single (x : String) :
    String.join ([x].map (fun y => y ++ "\n")) = x ++ "\n" := by
  show String.join [x ++ "\n"] = x ++ "\n"
  rw [string_join_cons]
  show (x ++ "\n") ++ "" = x ++ "\n"
  rw [String.append_empty]

theorem joinlines_pair_empty :
    String.join ((["", ""] : List String).map (fun y => y ++ "\n")) = "\n" ++ "\n" := by
  show String.join ["" ++ "\n", "" ++ "\n"] = "\n" ++ "\n"
  rw [string_join_cons, string_join_cons]
  show ("" ++ "\n") ++ (("" ++ "\n") ++ "") = "\n" ++ "\n"
  rw [String.empty_append, String.append_empty]

theorem joinlines_join_map {α : Type} (f : α → List String) (g : α → String)
    (hfg : ∀ a, String.join ((f a).map (fun x => x ++ "\n")) = g a) :
    ∀ L : List α, String.join (((L.map f).join).map (fun x => x ++ "\n")) =
      String.join (L.map g) := by
  intro L
  induction L with
  | nil => rfl
  | cons a rest ih =>
    have hjc : (((a :: rest).map f).join : List String) = f a ++ (rest.map f).join := rfl
    rw [hjc, joinlines_append, ih, hfg a, List.map_cons, string_join_cons]

theorem block_joinlines (cw : List Nat) (row : List String) :
    String.join (((List.range ((row.map (fun r => (pySplit r "\n").length)).foldl
        Nat.max 0)).map
      (RSTTable.render_row_line cw (row.map (fun r => pySplit r "\n")))
      ++ ["    " ++ (String.join (cw.map (fun w => "+" ++ strMul (w + 2) "-")) ++ "+")]).map
        (fun x => x ++ "\n")) =
    String.join ((List.range ((row.map (fun r => (pySplit r "\n").length)).foldl
        Nat.max 0)).map
      (fun l => RSTTable.render_row_line cw (row.map (fun r => pySplit r "\n")) l ++ "\n"))
    ++ RSTTable.table_row_divider cw "-" := by
  rw [joinlines_append, joinlines_single, table_row_divider_eq, List.map_map]
  rfl

set_option maxHeartbeats 1000000 in
theorem body_joinlines (cw : List Nat) (cols : List String) (strT : List (List String)) :
    RSTTable.table_row_divider cw "-" ++
    (String.join ((List.range ((cols.map (fun r => (pySplit r "\n").length)).foldl
        Nat.max 0)).map
      (fun l => RSTTable.render_row_line cw (cols.map (fun r => pySplit r "\n")) l ++
        "\n"))) ++
    RSTTable.table_row_divider cw "=" ++
    (String.join (strT.map (fun row =>
      String.join ((List.range ((row.map (fun r => (pySplit r "\n").length)).foldl
          Nat.max 0)).map
        (fun l => RSTTable.render_row_line cw (row.map (fun r => pySplit r "\n")) l ++
          "\n")) ++
      RSTTable.table_row_divider cw "-"))) ++
    "\n" ++ "\n" =
    String.join ((
      ["    " ++ (String.join (cw.map (fun w => "+" ++ strMul (w + 2) "-")) ++ "+")] ++
      (List.range ((cols.map (fun r => (pySplit r "\n").length)).foldl Nat.max 0)).map
        (RSTTable.render_row_line cw (cols.map (fun r => pySplit r "\n"))) ++
      ["    " ++ (String.join (cw.map (fun w => "+" ++ strMul (w + 2) "=")) ++ "+")] ++
      (strT.map (fun row =>
        (List.range ((row.map (fun r => (pySplit r "\n").length)).foldl Nat.max 0)).map
          (RSTTable.render_row_line cw (row.map (fun r => pySplit r "\n"))) ++
        ["    " ++ (String.join (cw.map (fun w => "+" ++ strMul (w + 2) "-")) ++
          "+")])).join ++
      ["", ""]).map (fun x => x ++ "\n")) := by
  have hjm := joinlines_join_map _ _ (block_joinlines cw) strT
  rw [joinlines_append, joinlines_append, joinlines_append, joinlines_append,
    joinlines_single, joinlines_single, joinlines_pair_empty, hjm,
    List.map_map, ← table_row_divider_eq, ← table_row_divider_eq]
  apply String.ext
  simp only [String.data_append, List.append_assoc]
  rfl

/-- C4: fixed-width, column-aligned table rendering. For a table whose stored
rows all have `num_cols` cells with every cell a string (`strRows = some strT`),
rendered into a document whose newline is `"\n"` (and not taking the
empty-table early return): the computed column widths are, per column, the
maximum `cell_len` (maximum line length) over that column's cells, header
included, plus 2; `normalize_cell` pads every newline-split cell line of that
column to exactly that column width plus 2 (the two surrounding spaces);
`render` succeeds and appends after the directive prelude a body whose lines
(divider lines, header-row lines and data-row lines, before the blank tail of
the final newlines) all have the same length `5 + sum (w_i + 3)`, and carry a
`'+'` or `'|'` separator at position `4 + sum_(i<j) (w_i + 3)` of every such
line, for every `j <= num_cols`. -/
theorem C4_fixed_width (t : RSTTable) (doc0 : RSTDocument) (strT : List (List String))
    (title table_class : Option String) (widths : Option (List Int)) (ignore_empty : Bool)
    (tref ltc : Option String)
    (hnl : doc0.newline = "\n") (hcols : 0 < t.cols.length)
    (hstr : t.strRows = some strT)
    (hrows : ∀ row ∈ strT, row.length = t.cols.length)
    (hne : ¬(t.table.length = 0 ∧ ignore_empty = true)) :
    (RSTTable.render_col_widths t.cols strT "\n") =
      (List.range t.cols.length).map (fun i =>
        ((t.cols :: strT).map (fun row => RSTTable.cell_len (row.getD i "") "\n")).foldl
          Nat.max 0 + 2) ∧
    (∀ row ∈ t.cols :: strT, ∀ i < t.cols.length, ∀ l,
      (RSTTable.normalize_cell ((pySplit (row.getD i "") "\n").getD l "")
        ((RSTTable.render_col_widths t.cols strT "\n").getD i 0)).length = (RSTTable.render_col_widths t.cols strT "\n").getD i 0 + 2) ∧
    ∃ d body lines,
      t.render (some doc0) title table_class widths ignore_empty tref ltc = .ok d ∧
      d.document = (RSTTable.render_prelude doc0 title table_class widths tref ltc).document ++ body ∧
      pySplit body "\n" = lines ++ ["", "", ""] ∧
      ∀ L ∈ lines,
        L.length = 5 + ((RSTTable.render_col_widths t.cols strT "\n").map (fun w => w + 3)).sum ∧
        ∀ j ≤ t.cols.length,
          L.data.getD (4 + (((RSTTable.render_col_widths t.cols strT "\n").take j).map (fun w => w + 3)).sum) ' ' = '+' ∨
          L.data.getD (4 + (((RSTTable.render_col_widths t.cols strT "\n").take j).map (fun w => w + 3)).sum) ' ' = '|' := by
  have hcw := render_col_widths_eq t.cols strT "\n" t.cols.length rfl hrows
  have hcwlen : (RSTTable.render_col_widths t.cols strT "\n").length = t.cols.length := by
    rw [hcw, List.length_map, List.length_range]
  have hgetD : ∀ i, i < t.cols.length → (RSTTable.render_col_widths t.cols strT "\n").getD i 0 =
      ((t.cols :: strT).map (fun row => RSTTable.cell_len (row.getD i "") "\n")).foldl
        Nat.max 0 + 2 := by
    intro i hi
    rw [hcw]
    exact range_map_getD t.cols.length _ i hi 0
  have hlinebound : ∀ row ∈ t.cols :: strT, ∀ i, i < t.cols.length → ∀ l,
      ((pySplit (row.getD i "") "\n").getD l "").length ≤ (RSTTable.render_col_widths t.cols strT "\n").getD i 0 + 1 := by
    intro row hrow i hi l
    have h1 := pySplit_line_le_cell_len (row.getD i "") "\n" l
    have h2 := cell_len_le_colmax (t.cols :: strT) row hrow i "\n"
    have h3 := hgetD i hi
    omega
  have hcols2 : t.cols ≠ [] := by
    intro hc
    rw [hc] at hcols
    exact absurd hcols (by decide)
  have hlens : ∀ row ∈ strT, row ≠ [] ∧ row.length ≤ (RSTTable.render_col_widths t.cols strT "\n").length := by
    intro row hrow
    have hr := hrows row hrow
    constructor
    · intro hc
      rw [hc] at hr
      have h0 : (0 : Nat) = t.cols.length := hr
      omega
    · rw [hcwlen]
      exact le_of_eq hr
  have hhdr : t.cols.length ≤ (RSTTable.render_col_widths t.cols strT "\n").length := le_of_eq hcwlen.symm
  have hrok := render_ok_eq t doc0 strT title table_class widths ignore_empty tref ltc hnl
    hcols2 hstr hlens hhdr hne
  have hclr : ∀ (row : List String), ∀ cl ∈ row.map (fun r => pySplit r "\n"),
      ∀ q ∈ cl, '\n' ∉ q.data := by
    intro row cl hcl q hq
    rcases List.mem_map.mp hcl with ⟨r, _, rfl⟩
    exact pySplit_pieces_no_newline r q hq
  have hrowfacts : ∀ row ∈ t.cols :: strT, ∀ l,
      (RSTTable.render_row_line (RSTTable.render_col_widths t.cols strT "\n") (row.map (fun r => pySplit r "\n")) l).length =
        5 + ((RSTTable.render_col_widths t.cols strT "\n").map (fun w => w + 3)).sum ∧
      ∀ j ≤ t.cols.length, (RSTTable.render_row_line (RSTTable.render_col_widths t.cols strT "\n")
          (row.map (fun r => pySplit r "\n")) l).data.getD
          (4 + (((RSTTable.render_col_widths t.cols strT "\n").take j).map (fun w => w + 3)).sum) ' ' = '|' := by
    intro row hrow l
    have hrl : row.length = t.cols.length := by
      rcases List.mem_cons.mp hrow with h | h
      · rw [h]
      · exact hrows row h
    have hfacts := row_line_facts (RSTTable.render_col_widths t.cols strT "\n") (row.map (fun r => pySplit r "\n")) l
      (by rw [List.length_map, hrl, hcwlen])
      (by
        intro ri hri
        have hri2 : ri < t.cols.length := by rw [hcwlen] at hri; exact hri
        rw [getD_map_lt (fun r => pySplit r "\n") row ri (by rw [hrl]; exact hri2) "" []]
        exact hlinebound row hrow ri hri2 l)
    refine ⟨hfacts.1, ?_⟩
    intro j hj
    exact hfacts.2 j (by rw [hcwlen]; exact hj)
  have hnonl : ∀ p ∈ ((["    " ++ (String.join ((RSTTable.render_col_widths t.cols strT "\n").map (fun w => "+" ++ strMul (w + 2) "-")) ++ "+")] ++
      (List.range ((t.cols.map (fun r => (pySplit r "\n").length)).foldl Nat.max 0)).map
        (RSTTable.render_row_line (RSTTable.render_col_widths t.cols strT "\n") (t.cols.map (fun r => pySplit r "\n"))) ++
      ["    " ++ (String.join ((RSTTable.render_col_widths t.cols strT "\n").map (fun w => "+" ++ strMul (w + 2) "=")) ++ "+")] ++
      (strT.map (fun row =>
        (List.range ((row.map (fun r => (pySplit r "\n").length)).foldl Nat.max 0)).map
          (RSTTable.render_row_line (RSTTable.render_col_widths t.cols strT "\n") (row.map (fun r => pySplit r "\n"))) ++
        ["    " ++ (String.join ((RSTTable.render_col_widths t.cols strT "\n").map (fun w => "+" ++ strMul (w + 2) "-")) ++ "+")])).join) ++ (["", ""] : List String)), '\n' ∉ p.data := by
    intro p hp
    rcases List.mem_append.mp hp with hp | hp
    · rcases List.mem_append.mp hp with hp | hp
      · rcases List.mem_append.mp hp with hp | hp
        · rcases List.mem_append.mp hp with hp | hp
          · rw [List.mem_singleton] at hp
            subst hp
            exact divider_line_no_newline (RSTTable.render_col_widths t.cols strT "\n") "-" (by decide)
          · rcases List.mem_map.mp hp with ⟨l, _, rfl⟩
            exact render_row_line_no_newline (RSTTable.render_col_widths t.cols strT "\n") _ l (hclr t.cols)
        · rw [List.mem_singleton] at hp
          subst hp
          exact divider_line_no_newline (RSTTable.render_col_widths t.cols strT "\n") "=" (by decide)
      · rcases List.mem_join.mp hp with ⟨bl, hbl, hpbl⟩
        rcases List.mem_map.mp hbl with ⟨row, _, rfl⟩
        rcases List.mem_append.mp hpbl with hp2 | hp2
        · rcases List.mem_map.mp hp2 with ⟨l, _, rfl⟩
          exact render_row_line_no_newline (RSTTable.render_col_widths t.cols strT "\n") _ l (hclr row)
        · rw [List.mem_singleton] at hp2
          subst hp2
          exact divider_line_no_newline (RSTTable.render_col_widths t.cols strT "\n") "-" (by decide)
    · rcases List.mem_cons.mp hp with h | h
      · subst h
        decide
      · rw [List.mem_singleton] at h
        subst h
        decide
  refine ⟨hcw, (fun row hrow i hi l =>
    normalize_cell_length _ _ (hlinebound row hrow i hi l)), _,
    (RSTTable.table_row_divider (RSTTable.render_col_widths t.cols strT "\n") "-" ++ (String.join ((List.range ((t.cols.map (fun r => (pySplit r "\n").length)).foldl Nat.max 0)).map
        (fun l => RSTTable.render_row_line (RSTTable.render_col_widths t.cols strT "\n") (t.cols.map (fun r => pySplit r "\n")) l ++ "\n"))) ++
      RSTTable.table_row_divider (RSTTable.render_col_widths t.cols strT "\n") "=" ++ (String.join (strT.map (fun row => String.join ((List.range ((row.map (fun r => (pySplit r "\n").length)).foldl Nat.max 0)).map
        (fun l => RSTTable.render_row_line (RSTTable.render_col_widths t.cols strT "\n") (row.map (fun r => pySplit r "\n")) l ++ "\n")) ++
        RSTTable.table_row_divider (RSTTable.render_col_widths t.cols strT "\n") "-"))) ++ "\n" ++ "\n"),
    (["    " ++ (String.join ((RSTTable.render_col_widths t.cols strT "\n").map (fun w => "+" ++ strMul (w + 2) "-")) ++ "+")] ++
      (List.range ((t.cols.map (fun r => (pySplit r "\n").length)).foldl Nat.max 0)).map
        (RSTTable.render_row_line (RSTTable.render_col_widths t.cols strT "\n") (t.cols.map (fun r => pySplit r "\n"))) ++
      ["    " ++ (String.join ((RSTTable.render_col_widths t.cols strT "\n").map (fun w => "+" ++ strMul (w + 2) "=")) ++ "+")] ++
      (strT.map (fun row =>
        (List.range ((row.map (fun r => (pySplit r "\n").length)).foldl Nat.max 0)).map
          (RSTTable.render_row_line (RSTTable.render_col_widths t.cols strT "\n") (row.map (fun r => pySplit r "\n"))) ++
        ["    " ++ (String.join ((RSTTable.render_col_widths t.cols strT "\n").map (fun w => "+" ++ strMul (w + 2) "-")) ++ "+")])).join), hrok, rfl, ?_, ?_⟩
  · rw [body_joinlines (RSTTable.render_col_widths t.cols strT "\n") t.cols strT,
      pySplit_joinlines ((["    " ++ (String.join ((RSTTable.render_col_widths t.cols strT "\n").map (fun w => "+" ++ strMul (w + 2) "-")) ++ "+")] ++
      (List.range ((t.cols.map (fun r => (pySplit r "\n").length)).foldl Nat.max 0)).map
        (RSTTable.render_row_line (RSTTable.render_col_widths t.cols strT "\n") (t.cols.map (fun r => pySplit r "\n"))) ++
      ["    " ++ (String.join ((RSTTable.render_col_widths t.cols strT "\n").map (fun w => "+" ++ strMul (w + 2) "=")) ++ "+")] ++
      (strT.map (fun row =>
        (List.range ((row.map (fun r => (pySplit r "\n").length)).foldl Nat.max 0)).map
          (RSTTable.render_row_line (RSTTable.render_col_widths t.cols strT "\n") (row.map (fun r => pySplit r "\n"))) ++
        ["    " ++ (String.join ((RSTTable.render_col_widths t.cols strT "\n").map (fun w => "+" ++ strMul (w + 2) "-")) ++ "+")])).join) ++ (["", ""] : List String)) hnonl, List.append_assoc]
    rfl
  · intro L hL
    rcases List.mem_append.mp hL with hL | hL
    · rcases List.mem_append.mp hL with hL | hL
      · rcases List.mem_append.mp hL with hL | hL
        · rw [List.mem_singleton] at hL
          subst hL
          have hdf := divider_line_facts (RSTTable.render_col_widths t.cols strT "\n") "-" rfl
          refine ⟨hdf.1, ?_⟩
          intro j hj
          exact Or.inl (hdf.2 j (by rw [hcwlen]; exact hj))
        · rcases List.mem_map.mp hL with ⟨l, _, rfl⟩
          have hrf := hrowfacts t.cols (List.mem_cons_self _ _) l
          exact ⟨hrf.1, fun j hj => Or.inr (hrf.2 j hj)⟩
      · rw [List.mem_singleton] at hL
        subst hL
        have hdf := divider_line_facts (RSTTable.render_col_widths t.cols strT "\n") "=" rfl
        refine ⟨hdf.1, ?_⟩
        intro j hj
        exact Or.inl (hdf.2 j (by rw [hcwlen]; exact hj))
    · rcases List.mem_join.mp hL with ⟨bl, hbl, hLbl⟩
      rcases List.mem_map.mp hbl with ⟨row, hrowm, rfl⟩
      rcases List.mem_append.mp hLbl with hL2 | hL2
      · rcases List.mem_map.mp hL2 with ⟨l, _, rfl⟩
        have hrf := hrowfacts row (List.mem_cons_of_mem _ hrowm) l
        exact ⟨hrf.1, fun j hj => Or.inr (hrf.2 j hj)⟩
      · rw [List.mem_singleton] at hL2
        subst hL2
        have hdf := divider_line_facts (RSTTable.render_col_widths t.cols strT "\n") "-" rfl
        refine ⟨hdf.1, ?_⟩
        intro j hj
        exact Or.inl (hdf.2 j (by rw [hcwlen]; exact hj))

/-- Witness for C4 at a one-column table with header `A` and a single row
`x`, rendered into a fresh document. -/
theorem C4_fixed_width_witness :
    (RSTTable.render_col_widths (((RSTTable.init (.inl ["A"])).add_row (some [Cell.str "x"]) (Cell.str "") true).1).cols ([["x"]] : List (List String)) "\n") =
      (List.range (((RSTTable.init (.inl ["A"])).add_row (some [Cell.str "x"]) (Cell.str "") true).1).cols.length).map (fun i =>
        (((((RSTTable.init (.inl ["A"])).add_row (some [Cell.str "x"]) (Cell.str "") true).1).cols :: ([["x"]] : List (List String))).map (fun row => RSTTable.cell_len (row.getD i "") "\n")).foldl
          Nat.max 0 + 2) ∧
    (∀ row ∈ (((RSTTable.init (.inl ["A"])).add_row (some [Cell.str "x"]) (Cell.str "") true).1).cols :: ([["x"]] : List (List String)), ∀ i < (((RSTTable.init (.inl ["A"])).add_row (some [Cell.str "x"]) (Cell.str "") true).1).cols.length, ∀ l,
      (RSTTable.normalize_cell ((pySplit (row.getD i "") "\n").getD l "")
        ((RSTTable.render_col_widths (((RSTTable.init (.inl ["A"])).add_row (some [Cell.str "x"]) (Cell.str "") true).1).cols ([["x"]] : List (List String)) "\n").getD i 0)).length = (RSTTable.render_col_widths (((RSTTable.init (.inl ["A"])).add_row (some [Cell.str "x"]) (Cell.str "") true).1).cols ([["x"]] : List (List String)) "\n").getD i 0 + 2) ∧
    ∃ d body lines,
      (((RSTTable.init (.inl ["A"])).add_row (some [Cell.str "x"]) (Cell.str "") true).1).render (some RSTDocument.init) none none none false none none = .ok d ∧
      d.document = (RSTTable.render_prelude RSTDocument.init none none none none none).document ++ body ∧
      pySplit body "\n" = lines ++ ["", "", ""] ∧
      ∀ L ∈ lines,
        L.length = 5 + ((RSTTable.render_col_widths (((RSTTable.init (.inl ["A"])).add_row (some [Cell.str "x"]) (Cell.str "") true).1).cols ([["x"]] : List (List String)) "\n").map (fun w => w + 3)).sum ∧
        ∀ j ≤ (((RSTTable.init (.inl ["A"])).add_row (some [Cell.str "x"]) (Cell.str "") true).1).cols.length,
          L.data.getD (4 + (((RSTTable.render_col_widths (((RSTTable.init (.inl ["A"])).add_row (some [Cell.str "x"]) (Cell.str "") true).1).cols ([["x"]] : List (List String)) "\n").take j).map (fun w => w + 3)).sum) ' ' = '+' ∨
          L.data.getD (4 + (((RSTTable.render_col_widths (((RSTTable.init (.inl ["A"])).add_row (some [Cell.str "x"]) (Cell.str "") true).1).cols ([["x"]] : List (List String)) "\n").take j).map (fun w => w + 3)).sum) ' ' = '|' :=
  C4_fixed_width (((RSTTable.init (.inl ["A"])).add_row (some [Cell.str "x"]) (Cell.str "") true).1)
    RSTDocument.init ([["x"]] : List (List String)) none none none false none none
    (by rfl) (by decide) (by rfl) (by decide) (by decide)

end HdmfDocutils
